import Mathlib

/-!
Verification development for the `betlemme` ingestion pipeline.

The JavaScript sources (`src/index.js`, the CLI variant, and
`src/index.http.js`, the HTTP/Supabase variant) are shallowly embedded:
JSON/JS values become the inductive type `JsValue`, the relational store
becomes the record `Db` of row lists, and the two `main` entry points
become pure state transformers `mainJs` / `mainHttp` with an explicit
failure-injection argument that models an exception raised at one of the
numbered persistence steps.

Library calls that are external to the repository are modelled as pure
functions at the granularity the code observes them:
* `uuid.v5` is a deterministic function of (name, namespace); it is
  modelled by an injective tagged concatenation.
* `object-hash`'s `hash` is a key-order-insensitive digest; it is
  modelled by the canonical (recursively key-sorted) form of the value
  itself, an injective stand-in for a collision-resistant hash.
* `new Date(x).toISOString()` is modelled as the identity on the date
  string; no verified property depends on date formatting.
-/

namespace Betlemme

/-- JS/JSON values as the source manipulates them (`undef` is JS
`undefined`, distinct from JSON `null`; `nan` is the JS `NaN` number). -/
inductive JsValue where
  | null
  | undef
  | nan
  | bool (b : Bool)
  | num (q : Rat)
  | str (s : String)
  | arr (elems : List JsValue)
  | obj (fields : List (String × JsValue))
deriving Repr

mutual

/-- Structural equality on `JsValue` (Boolean form). -/
def jsEq : JsValue → JsValue → Bool
  | .null, .null => true
  | .undef, .undef => true
  | .nan, .nan => true
  | .bool a, .bool b => a == b
  | .num a, .num b => a == b
  | .str a, .str b => a == b
  | .arr a, .arr b => jsEqList a b
  | .obj a, .obj b => jsEqFields a b
  | _, _ => false

def jsEqList : List JsValue → List JsValue → Bool
  | [], [] => true
  | x :: xs, y :: ys => jsEq x y && jsEqList xs ys
  | _, _ => false

def jsEqFields : List (String × JsValue) → List (String × JsValue) → Bool
  | [], [] => true
  | (k, v) :: xs, (k', v') :: ys => k == k' && jsEq v v' && jsEqFields xs ys
  | _, _ => false

end

/-- Custom induction principle for the nested inductive `JsValue`. -/
theorem JsValue.inductionOn (motive : JsValue → Prop)
    (hnull : motive .null) (hundef : motive .undef) (hnan : motive .nan)
    (hbool : ∀ b, motive (.bool b)) (hnum : ∀ q, motive (.num q))
    (hstr : ∀ s, motive (.str s))
    (harr : ∀ xs, (∀ x ∈ xs, motive x) → motive (.arr xs))
    (hobj : ∀ fs, (∀ kv ∈ fs, motive kv.2) → motive (.obj fs)) :
    ∀ v, motive v
  | .null => hnull
  | .undef => hundef
  | .nan => hnan
  | .bool b => hbool b
  | .num q => hnum q
  | .str s => hstr s
  | .arr xs => harr xs (fun x hx =>
      have : sizeOf x < 1 + sizeOf xs := by
        have := List.sizeOf_lt_of_mem hx
        omega
      JsValue.inductionOn motive hnull hundef hnan hbool hnum hstr harr hobj x)
  | .obj fs => hobj fs (fun kv hkv =>
      have : sizeOf kv.2 < 1 + sizeOf fs := by
        have h1 := List.sizeOf_lt_of_mem hkv
        have h2 : sizeOf kv.2 < sizeOf kv := by
          obtain ⟨a, b⟩ := kv
          simp only [Prod.mk.sizeOf_spec]
          omega
        omega
      JsValue.inductionOn motive hnull hundef hnan hbool hnum hstr harr hobj kv.2)
termination_by v => sizeOf v

theorem jsEqList_iff (xs ys : List JsValue)
    (ih : ∀ x ∈ xs, ∀ y, jsEq x y = true ↔ x = y) :
    jsEqList xs ys = true ↔ xs = ys := by
  induction xs generalizing ys with
  | nil => cases ys <;> simp [jsEqList]
  | cons x xs ihl =>
    cases ys with
    | nil => simp [jsEqList]
    | cons y ys =>
      simp only [jsEqList, Bool.and_eq_true, List.cons.injEq]
      rw [ih x (by simp) y, ihl ys (fun a ha => ih a (List.mem_cons_of_mem x ha))]

theorem jsEqFields_iff (xs ys : List (String × JsValue))
    (ih : ∀ kv ∈ xs, ∀ y, jsEq kv.2 y = true ↔ kv.2 = y) :
    jsEqFields xs ys = true ↔ xs = ys := by
  induction xs generalizing ys with
  | nil => cases ys <;> simp [jsEqFields]
  | cons x xs ihl =>
    cases ys with
    | nil => obtain ⟨k, v⟩ := x; simp [jsEqFields]
    | cons y ys =>
      obtain ⟨k, v⟩ := x
      obtain ⟨k', v'⟩ := y
      simp only [jsEqFields, Bool.and_eq_true, List.cons.injEq, Prod.mk.injEq, beq_iff_eq]
      rw [show jsEq v v' = true ↔ v = v' from ih (k, v) (by simp) v',
        ihl ys (fun a ha => ih a (List.mem_cons_of_mem (k, v) ha))]

theorem jsEq_iff : ∀ a b : JsValue, jsEq a b = true ↔ a = b := by
  intro a
  induction a using JsValue.inductionOn with
  | hnull => intro b; cases b <;> simp [jsEq]
  | hundef => intro b; cases b <;> simp [jsEq]
  | hnan => intro b; cases b <;> simp [jsEq]
  | hbool x => intro b; cases b <;> simp [jsEq]
  | hnum x => intro b; cases b <;> simp [jsEq]
  | hstr x => intro b; cases b <;> simp [jsEq]
  | harr xs ih =>
    intro b
    cases b <;> simp only [jsEq, JsValue.arr.injEq] <;> try simp
    exact jsEqList_iff xs _ ih
  | hobj fs ih =>
    intro b
    cases b <;> simp only [jsEq, JsValue.obj.injEq] <;> try simp
    exact jsEqFields_iff fs _ ih

instance : DecidableEq JsValue := fun a b =>
  decidable_of_iff (jsEq a b = true) (jsEq_iff a b)

/-- JS truthiness. -/
def JsValue.truthy : JsValue → Bool
  | .null => false
  | .undef => false
  | .nan => false
  | .bool b => b
  | .num q => q != 0
  | .str s => s != ""
  | .arr _ => true
  | .obj _ => true

/-- JS `typeof`. -/
def jsTypeof : JsValue → String
  | .null => "object"
  | .undef => "undefined"
  | .nan => "number"
  | .bool _ => "boolean"
  | .num _ => "number"
  | .str _ => "string"
  | .arr _ => "object"
  | .obj _ => "object"

/-- `typeof v === 'object'` (true for objects, arrays and `null`). -/
def JsValue.isObjectType (v : JsValue) : Bool := jsTypeof v == "object"

/-- Parse a non-empty all-digit character list. -/
def natOfDigits? (cs : List Char) : Option Nat :=
  if cs.isEmpty || !(cs.all Char.isDigit) then none
  else some (cs.foldl (fun n c => n * 10 + (c.toNat - 48)) 0)

/-- Parse a decimal `Nat` from a string. -/
def strToNat? (s : String) : Option Nat := natOfDigits? s.toList

/-- Parse a decimal `Int` (optional sign) from a string. -/
def strToInt? (s : String) : Option Int :=
  match s.toList with
  | '-' :: rest => (natOfDigits? rest).map (fun n => -(n : Int))
  | '+' :: rest => (natOfDigits? rest).map (fun n => (n : Int))
  | cs => (natOfDigits? cs).map (fun n => (n : Int))

/-- JS whitespace for `trim` / `Number` coercion. -/
def isJsSpace (c : Char) : Bool :=
  c == ' ' || c == '\t' || c == '\n' || c == '\r' || c == '\x0c' || c == '\x0b'

/-- JS `String.prototype.trim`. -/
def jsTrim (s : String) : String :=
  String.mk (((s.toList.dropWhile isJsSpace).reverse.dropWhile isJsSpace).reverse)

/-- JS `String.prototype.toLowerCase` (ASCII, as the compared keys are). -/
def strToLower (s : String) : String := String.mk (s.toList.map Char.toLower)

/-- Property access `v[k]` / `v?.[k]`, yielding `undefined` when absent
(the embedding does not model the TypeError on `null` bases; no verified
property exercises it). -/
def JsValue.get : JsValue → String → JsValue
  | .obj fs, k =>
    match fs.lookup k with
    | some v => v
    | none => .undef
  | .arr xs, k =>
    match strToNat? k with
    | some i => xs.getD i .undef
    | none => .undef
  | _, _ => JsValue.undef

/-- `Object.entries` (arrays enumerate index/value pairs). -/
def JsValue.jsEntries : JsValue → List (String × JsValue)
  | .obj fs => fs
  | .arr xs => (List.range xs.length).zip xs |>.map (fun p => (toString p.1, p.2))
  | _ => []

/-- JS `x || y`. -/
def jsOr (x y : JsValue) : JsValue := if x.truthy then x else y

/-- JS `x ?? y`. -/
def jsNullish (x y : JsValue) : JsValue :=
  match x with
  | .null => y
  | .undef => y
  | v => v

/-- `safeGet(obj, pathArr)` from both sources: a `reduce` where each step
takes `acc[key]` only when `acc` is truthy and the member is defined,
else the (undefined) default. -/
def safeGet (o : JsValue) (path : List String) : JsValue :=
  path.foldl
    (fun acc k => if acc.truthy && (acc.get k) != JsValue.undef then acc.get k else .undef) o

/-- JS `String(v)` coercion at the precision the claims need (numbers
with denominator 1 print their integer part; identifiers are strings). -/
def jsToString : JsValue → String
  | .null => "null"
  | .undef => "undefined"
  | .nan => "NaN"
  | .bool b => if b then "true" else "false"
  | .num q => if q.den = 1 then toString q.num else toString q
  | .str s => s
  | .arr _ => ""
  | .obj _ => "[object Object]"

/-- `needle` is a prefix of the second list. -/
def charsHaveStart (needle : List Char) : List Char → Bool
  | [] => needle.isEmpty
  | h :: hs =>
    match needle with
    | [] => true
    | n :: ns => n == h && charsHaveStart ns hs

/-- `needle` occurs as a contiguous run of the second list. -/
def charsInclude (needle : List Char) : List Char → Bool
  | [] => needle.isEmpty
  | h :: hs => charsHaveStart needle (h :: hs) || charsInclude needle hs

/-- Substring test, JS `String.prototype.includes`. -/
def jsIncludes (s sub : String) : Bool := charsInclude sub.toList s.toList

/-- Fields contributed by a spread `...v` inside an object literal. -/
def jsSpreadFields : JsValue → List (String × JsValue)
  | .obj fs => fs
  | .arr xs => (List.range xs.length).zip xs |>.map (fun p => (toString p.1, p.2))
  | .str s => (List.range s.length).zip s.toList
      |>.map (fun p => (toString p.1, .str (String.mk [p.2])))
  | _ => []

/-- Object-literal key semantics: a later assignment to the same key
overrides the earlier value; key order is first-insertion order. -/
def overrideFields (fs : List (String × JsValue)) : List (String × JsValue) :=
  fs.foldl
    (fun acc kv =>
      if acc.any (fun p => p.1 == kv.1) then
        acc.map (fun p => if p.1 == kv.1 then (p.1, kv.2) else p)
      else acc ++ [kv]) []

/-- Object literal with spreads, e.g. `{addressType: 'SEDE', ...addr}`. -/
def mkObjWithSpread (pre : List (String × JsValue)) (spread : JsValue) : JsValue :=
  .obj (overrideFields (pre ++ jsSpreadFields spread))

/-- Lexicographic comparison of character lists (by code point). -/
def charsLe : List Char → List Char → Bool
  | [], _ => true
  | _ :: _, [] => false
  | a :: as, b :: bs =>
    if a.toNat < b.toNat then true
    else if b.toNat < a.toNat then false
    else charsLe as bs

/-- Total order on field keys used for canonicalisation. -/
def keyLe (a b : String) : Bool := charsLe a.toList b.toList

/-- Insertion into a key-sorted field list. -/
def insertSortedField (kv : String × JsValue) : List (String × JsValue) →
    List (String × JsValue)
  | [] => [kv]
  | h :: t => if keyLe kv.1 h.1 then kv :: h :: t else h :: insertSortedField kv t

/-- Key-sort a field list (insertion sort, stable). -/
def sortFields : List (String × JsValue) → List (String × JsValue)
  | [] => []
  | h :: t => insertSortedField h (sortFields t)

mutual

/-- Canonical form: object keys recursively sorted, modelling the
key-order-insensitive canonicalisation done by `object-hash`. -/
def canon : JsValue → JsValue
  | .arr xs => .arr (canonList xs)
  | .obj fs => .obj (sortFields (canonFields fs))
  | v => v

def canonList : List JsValue → List JsValue
  | [] => []
  | x :: xs => canon x :: canonList xs

def canonFields : List (String × JsValue) → List (String × JsValue)
  | [] => []
  | (k, v) :: fs => (k, canon v) :: canonFields fs

end

/-- `hash(raw_json)` from the `object-hash` library: a deterministic
digest insensitive to key order, modelled as the canonical form itself. -/
def objHash (v : JsValue) : JsValue := canon v

/- ------------------------- string utilities ------------------------- -/

/-- First `replace` of `toSnakeCase`: insert `_` at a lower/digit →
upper boundary (`/([a-z0-9])([A-Z])/g` with `$1_$2`). -/
def snakeStep1 : List Char → List Char
  | a :: b :: rest =>
    if (a.isLower || a.isDigit) && b.isUpper then a :: '_' :: snakeStep1 (b :: rest)
    else a :: snakeStep1 (b :: rest)
  | l => l

/-- Characters collapsed by the second `replace` (`/[\s\-.]+/g`). -/
def isSepChar (c : Char) : Bool :=
  c == ' ' || c == '\t' || c == '\n' || c == '\r' || c == '\x0c' || c == '\x0b' ||
  c == '-' || c == '.'

/-- Second `replace` of `toSnakeCase`: each run of separators becomes a
single `_` (the flag records whether the previous character was part of
a separator run). -/
def collapseSeps : Bool → List Char → List Char
  | _, [] => []
  | prevSep, c :: rest =>
    if isSepChar c then
      if prevSep then collapseSeps true rest else '_' :: collapseSeps true rest
    else c :: collapseSeps false rest

def snakeStep2 (l : List Char) : List Char := collapseSeps false l

/-- `toSnakeCase` from both sources: camelCase boundary split, separator
collapse, lower-case, truncate to 60 characters. -/
def toSnakeCase (s : String) : String :=
  String.mk ((((snakeStep2 (snakeStep1 s.toList)).map Char.toLower)).take 60)

/-- The string starts with the `/^(\d{4}-\d{2}-\d{2})/` pattern. -/
def startsWithDatePat (s : String) : Bool :=
  match s.toList with
  | a :: b :: c :: d :: '-' :: e :: f :: '-' :: g :: h :: _ =>
    [a, b, c, d, e, f, g, h].all Char.isDigit
  | _ => false

/-- Modelled: `!Number.isNaN(Date.parse(value))` on strings that start
with `\d{4}-\d{2}-\d{2}` — the engine accepts them when month and day
are in range. -/
def jsDateParseOk (s : String) : Bool :=
  match s.toList with
  | _ :: _ :: _ :: _ :: '-' :: m1 :: m2 :: '-' :: d1 :: d2 :: _ =>
    let m := (m1.toNat - 48) * 10 + (m2.toNat - 48)
    let d := (d1.toNat - 48) * 10 + (d2.toNat - 48)
    decide (1 ≤ m) && decide (m ≤ 12) && decide (1 ≤ d) && decide (d ≤ 31)
  | _ => false

/-- `inferPgType` from both sources. -/
def inferPgType (v : JsValue) : String :=
  match v with
  | .null => "text"
  | .bool _ => "boolean"
  | .num q => if q.den = 1 then "bigint" else "numeric"
  | .nan => "numeric"
  | .str s =>
    if jsDateParseOk s && startsWithDatePat s then
      if jsIncludes s "T" then "timestamptz" else "date"
    else "text"
  | _ => "text"

/- ------------------------ identity resolver ------------------------- -/

/-- The UUIDv5 namespace constant `NS` shared by both sources. -/
def NS : String := "6ba7b810-9dad-11d1-80b4-00c04fd430c8"

/-- `uuid.v5(name, namespace)`: a deterministic, injective function of
its two inputs (SHA-1 based in the library); modelled by a tagged
concatenation, which preserves exactly the properties the code relies
on — determinism across calls and processes, and distinctness for
distinct names. -/
def uuidv5 (name ns : String) : String := "uuid5:" ++ ns ++ ":" ++ name

/-- The VAT lookup chain of `computeAziendaId` in `src/index.js`. -/
def vatOfJs (payload : JsValue) : JsValue :=
  jsOr (safeGet payload ["companyDetails", "vatCode"]) (payload.get "vatCode")

/-- The tax-code lookup chain of `computeAziendaId` in `src/index.js`. -/
def taxOfJs (payload : JsValue) : JsValue :=
  jsOr (safeGet payload ["companyDetails", "taxCode"]) (payload.get "taxCode")

/-- `computeAziendaId` from `src/index.js`; `fresh` models the one
`uuidv4()` draw used when no natural key is present. -/
def computeAziendaId (fresh : String) (payload : JsValue) : String :=
  let base := jsOr (vatOfJs payload) (taxOfJs payload)
  if !base.truthy then fresh
  else uuidv5 (jsTrim (jsToString base)) NS

/-- The VAT lookup chain of `computeAziendaId` in `src/index.http.js`
(also probes the `data.`-nested vendor shape). -/
def vatOfHttp (payload : JsValue) : JsValue :=
  jsOr (jsOr (jsOr (safeGet payload ["companyDetails", "vatCode"])
    (safeGet payload ["data", "companyDetails", "vatCode"]))
    (payload.get "vatCode")) ((payload.get "data").get "vatCode")

/-- The tax-code lookup chain of `computeAziendaId` in
`src/index.http.js`. -/
def taxOfHttp (payload : JsValue) : JsValue :=
  jsOr (jsOr (jsOr (safeGet payload ["companyDetails", "taxCode"])
    (safeGet payload ["data", "companyDetails", "taxCode"]))
    (payload.get "taxCode")) ((payload.get "data").get "taxCode")

/-- `computeAziendaId` from `src/index.http.js`. -/
def computeAziendaIdHttp (fresh : String) (payload : JsValue) : String :=
  let base := jsOr (vatOfHttp payload) (taxOfHttp payload)
  if base.truthy then uuidv5 (jsTrim (jsToString base)) NS else fresh

/- --------------------- effective-date computation ------------------- -/

/-- `new Date(x).toISOString()` modelled as the identity on the date
string (no verified property depends on date formatting). -/
def jsDateISO (v : JsValue) : String := jsToString v

/-- `new Date(Date.UTC(Number(year), 11, 31)).toISOString()`. -/
def yearEndISO (year : JsValue) : String :=
  jsToString year ++ "-12-31T00:00:00.000Z"

/-- `effectiveDateForSection` from both sources. -/
def effectiveDateForSection (sectionName : String) (sp : JsValue)
    (globalFallback : String) : String :=
  let year := jsOr (sp.get "year") (sp.get "fiscalYear")
  if sectionName == "balance" && year.truthy then yearEndISO year
  else
    let dates := [sp.get "lastUpdateDate", sp.get "updateDate", sp.get "sinceDate",
      sp.get "roleStartDate"].filter (·.truthy)
    match dates with
    | d :: _ => jsDateISO d
    | [] => globalFallback

/- -------------------------- recursive walk -------------------------- -/

mutual

/-- `walk(obj, cb, path)` from `src/index.http.js`: the list of
`(node, path)` pairs the callback visits, in visit order (a node before
its children, children in entry order). -/
def walkNodes : JsValue → List String → List (JsValue × List String)
  | .arr xs, path =>
    (JsValue.arr xs, path) :: walkNodesArr xs path 0
  | .obj fs, path =>
    (JsValue.obj fs, path) :: walkNodesObj fs path
  | _, _ => []

def walkNodesArr : List JsValue → List String → Nat → List (JsValue × List String)
  | [], _, _ => []
  | x :: xs, path, i => walkNodes x (path ++ [toString i]) ++ walkNodesArr xs path (i + 1)

def walkNodesObj : List (String × JsValue) → List String → List (JsValue × List String)
  | [], _ => []
  | (k, v) :: fs, path => walkNodes v (path ++ [k]) ++ walkNodesObj fs path

end

/-- `CODE_RE = /^[A-Z]{2,4}\d{2,4}$/`. -/
def codeRe (s : String) : Bool :=
  let cs := s.toList
  let letters := cs.takeWhile (fun c => 'A' ≤ c && c ≤ 'Z')
  let rest := cs.drop letters.length
  decide (2 ≤ letters.length) && decide (letters.length ≤ 4) &&
  decide (2 ≤ rest.length) && decide (rest.length ≤ 4) && rest.all Char.isDigit

/-- First match of `/20\d{2}/` in a string, as a number
(`path.join('.').match(/20\d{2}/)?.[0]` then `Number`). -/
def yearScan : List Char → Option Nat
  | [] => none
  | c :: rest =>
    match c :: rest with
    | '2' :: '0' :: a :: b :: _ =>
      if a.isDigit && b.isDigit then some (2000 + (a.toNat - 48) * 10 + (b.toNat - 48))
      else yearScan rest
    | _ => yearScan rest

/-- JS `Number(v)` on the string case at the precision tier 3 needs:
integer strings parse, anything else is `NaN` (fractional parsing is
not exercised by any verified property). -/
def jsNumberOf : JsValue → JsValue
  | .num q => .num q
  | .nan => .nan
  | .bool b => .num (if b then 1 else 0)
  | .null => .num 0
  | .str s =>
    let t := jsTrim s
    if t = "" then .num 0
    else match strToInt? t with
      | some n => .num n
      | none => .nan
  | _ => .nan

/- ----------------------------- data model --------------------------- -/

/-- A normalised financial line-item candidate, the object literal both
extractors push (`{year, statement, code, description?, amount,
currency, source_path, note?}`); absent keys are `undef`. -/
structure BEntry where
  year : JsValue
  statement : JsValue
  code : JsValue
  description : JsValue
  amount : JsValue
  currency : JsValue
  source_path : JsValue
  note : JsValue
deriving DecidableEq, Repr

/-- Positional constructor for `BEntry` literals, ordered as in the
source: year, statement, code, description, amount, currency,
source_path, note. -/
def mkBEntry (year statement code description amount currency source_path note : JsValue) :
    BEntry :=
  ⟨year, statement, code, description, amount, currency, source_path, note⟩

/-- The JS object a `BEntry` literal denotes (used for `hash(row)`;
keys with `undefined` values are omitted as the literals omit them). -/
def BEntry.toJs (e : BEntry) : JsValue :=
  .obj (([("year", e.year), ("statement", e.statement), ("code", e.code),
    ("description", e.description), ("amount", e.amount), ("currency", e.currency),
    ("source_path", e.source_path), ("note", e.note)]).filter (fun kv => kv.2 != .undef))

/-- A row of `companies`. -/
structure CompanyRow where
  azienda_id : String
  vat_code : JsValue
  tax_code : JsValue
  company_name : JsValue
  legal_form : JsValue
  status : JsValue
  cciaa : JsValue
  rea_code : JsValue
  country_code : JsValue
deriving DecidableEq, Repr

/-- A row of `company_versions` (primary key `version_id`, default
`gen_random_uuid()`). -/
structure VersionRow where
  version_id : String
  azienda_id : String
  effective_date : String
  content_hash : JsValue
  raw_json : JsValue
deriving DecidableEq, Repr

/-- A row of `raw_sections`. -/
structure RawRow where
  azienda_id : String
  «section» : String
  effective_date : String
  raw_json : JsValue
deriving DecidableEq, Repr

/-- A row of `contacts`. -/
structure ContactRow where
  azienda_id : String
  effective_date : String
  phone : JsValue
  email : JsValue
  pec : JsValue
  website : JsValue
  raw_json : JsValue
deriving DecidableEq, Repr

/-- A row of `addresses`. -/
structure AddressRow where
  azienda_id : String
  effective_date : String
  address_type : JsValue
  street : JsValue
  zip_code : JsValue
  town : JsValue
  province : JsValue
  region : JsValue
  country : JsValue
  raw_json : JsValue
deriving DecidableEq, Repr

/-- A row of `ateco` (HTTP variant only). -/
structure AtecoRow where
  ateco_id : String
  azienda_id : String
  effective_date : String
  ateco_code : JsValue
  ateco_description : JsValue
  raw_json : JsValue
deriving DecidableEq, Repr

/-- A row of `balance_entries`. -/
structure BalanceRow where
  azienda_id : String
  year : JsValue
  statement : JsValue
  code : JsValue
  description : JsValue
  amount : JsValue
  currency : JsValue
  source_path : JsValue
  note : JsValue
  content_hash : JsValue
deriving DecidableEq, Repr

/-- A row of `unmapped_codes` (primary key `code`). -/
structure UnmappedRow where
  code : String
  statement_guess : JsValue
  occurrences : Nat
deriving DecidableEq, Repr

/-- One `{table, column, pgType?}` entry of `report.createdColumns`. -/
structure CreatedCol where
  table : String
  created : Bool
  column : String
  pgType : Option String
deriving DecidableEq, Repr

/-- One `{table, reason, row}` entry of `report.warnings`. -/
structure Warning where
  table : String
  reason : String
  row : BEntry
deriving DecidableEq, Repr

/-- The in-memory run summary (`report` object of both `main`s). -/
structure Report where
  ingestionId : String
  createdColumns : List CreatedCol
  inserts : List (String × Nat)
  skips : List (String × Nat)
  warnings : List Warning
  status : String
deriving DecidableEq, Repr

/-- `(m.k || 0) + delta` bookkeeping on the `inserts`/`skips` maps. -/
def bump (m : List (String × Nat)) (k : String) (delta : Nat) : List (String × Nat) :=
  match m.lookup k with
  | some n => m.map (fun kv => if kv.1 == k then (k, n + delta) else kv)
  | none => m ++ [(k, delta)]

/-- The initial report value built at the top of `main`. -/
def initialReport (ingId : String) : Report :=
  { ingestionId := ingId, createdColumns := [], inserts := [], skips := [],
    warnings := [], status := "PARTIAL" }

/-- The run-summary payload of a persisted `ingestions` row: the report
object on the happy path, `jsonb_build_object('error', msg)` on the
error path. -/
inductive IngSummary where
  | report (r : Report)
  | errorObj (msg : String)
deriving DecidableEq, Repr

/-- A row of `ingestions`. -/
structure IngestionRow where
  ingestion_id : String
  source : String
  azienda_id : Option String
  status : String
  summary : IngSummary
deriving DecidableEq, Repr

/-- The relational store: one list of rows per table, plus the
`information_schema.columns` view consulted by `ensureColumn` and the
static `legend_codes` reference table. -/
structure Db where
  companies : List CompanyRow
  company_versions : List VersionRow
  raw_sections : List RawRow
  contacts : List ContactRow
  addresses : List AddressRow
  ateco : List AtecoRow
  balance_entries : List BalanceRow
  unmapped_codes : List UnmappedRow
  ingestions : List IngestionRow
  infoColumns : List (String × String)
  legend_codes : List (String × String)
deriving DecidableEq, Repr

/-- The all-empty store. -/
def emptyDb : Db :=
  { companies := [], company_versions := [], raw_sections := [], contacts := [],
    addresses := [], ateco := [], balance_entries := [], unmapped_codes := [],
    ingestions := [], infoColumns := [], legend_codes := [] }

/- ---------------------- schema evolution manager --------------------- -/

/-- The result object of `ensureColumn` (`pgType` is absent on the
`created:false` branch of the CLI variant). -/
structure EnsureRes where
  created : Bool
  column : String
  pgType : Option String
deriving DecidableEq, Repr

/-- Column-existence probe against `information_schema.columns`. -/
def hasColumn (cols : List (String × String)) (table col : String) : Bool :=
  cols.any (fun tc => tc.1 == table && tc.2 == col)

/-- `ensureColumn` from `src/index.js`: probe, `alter table … add column`
only when absent, and report `created` accordingly. -/
def ensureColumnJs (cols : List (String × String)) (table field : String)
    (sample : JsValue) : List (String × String) × EnsureRes :=
  let col := toSnakeCase field
  if hasColumn cols table col then (cols, ⟨false, col, none⟩)
  else (cols ++ [(table, col)], ⟨true, col, some (inferPgType sample)⟩)

/-- `ensureColumn` from `src/index.http.js`: the `DO $$ … $$` block adds
the column only when absent, but the function unconditionally returns
`{created: true, column, pgType}`. -/
def ensureColumnHttp (cols : List (String × String)) (table field : String)
    (sample : JsValue) : List (String × String) × EnsureRes :=
  let col := toSnakeCase field
  let pgType := inferPgType sample
  ((if hasColumn cols table col then cols else cols ++ [(table, col)]),
    ⟨true, col, some pgType⟩)

/- -------------------------- section extractors ----------------------- -/

/-- `extractContacts` from `src/index.js`: well-known top-level /
nested field names; `null` when nothing was found. -/
def extractContactsJs (p : JsValue) : JsValue :=
  let phone := jsOr (jsOr (p.get "phone") ((p.get "contacts").get "phone")) .null
  let email := jsOr (jsOr (p.get "email") ((p.get "contacts").get "email")) .null
  let pec := jsOr (jsOr (p.get "pec") ((p.get "contacts").get "pec")) .null
  let website := jsOr (jsOr (p.get "website") ((p.get "contacts").get "website")) .null
  if !phone.truthy && !email.truthy && !pec.truthy && !website.truthy then .null
  else .obj [("phone", phone), ("email", email), ("pec", pec), ("website", website)]

/-- The four-field accumulator of the HTTP contacts walk. -/
structure ContactsAcc where
  phone : JsValue
  email : JsValue
  pec : JsValue
  website : JsValue
deriving DecidableEq, Repr

/-- One `[k, v]` step of the HTTP contacts walk callback: the four
first-match-wins substring checks, applied in source order. -/
def contactsFieldStep (res : ContactsAcc) (k : String) (v : JsValue) : ContactsAcc :=
  match v with
  | .str s =>
    let key := strToLower k
    let res := if !res.pec.truthy && (key == "pec" || jsIncludes key "pec") then
        { res with pec := .str s } else res
    let res := if !res.email.truthy &&
        (key == "email" || key == "e-mail" || jsIncludes key "mail") then
        { res with email := .str s } else res
    let res := if !res.phone.truthy && (key == "phone" || jsIncludes key "tel") then
        { res with phone := .str s } else res
    let res := if !res.website.truthy &&
        (key == "website" || jsIncludes key "sito" || jsIncludes key "web") then
        { res with website := .str s } else res
    res
  | _ => res

/-- `extractContacts` from `src/index.http.js`: a full recursive walk;
only plain (non-array) object nodes contribute. -/
def extractContactsHttp (p : JsValue) : JsValue :=
  let res := (walkNodes p []).foldl
    (fun res nodePath =>
      match nodePath.1 with
      | .obj fs => fs.foldl (fun r (kv : String × JsValue) => contactsFieldStep r kv.1 kv.2) res
      | _ => res)
    ⟨.null, .null, .null, .null⟩
  if res.phone.truthy || res.email.truthy || res.pec.truthy || res.website.truthy then
    .obj [("phone", res.phone), ("email", res.email), ("pec", res.pec),
      ("website", res.website)]
  else .null

/-- `extractAddresses` from `src/index.js`: the registered-office block
plus the `allOffices` array. -/
def extractAddressesJs (p : JsValue) : List JsValue :=
  (if (p.get "address").truthy then
    [mkObjWithSpread [("addressType", .str "SEDE")] (p.get "address")]
  else []) ++
  (match p.get "allOffices" with
  | .arr offices => offices.map (fun o =>
      mkObjWithSpread [("addressType", jsOr (o.get "officeType") (.str "OFFICE"))]
        (o.get "address"))
  | _ => [])

/-- The address-shaped key vocabulary of the HTTP fallback walk. -/
def addressHints : List String :=
  ["street", "streetname", "indirizzo", "zip", "zipcode", "cap", "town", "city",
    "comune", "province", "provincia", "region", "regione", "country", "stato"]

/-- Top-level keys of a value (`getTopKeys`). -/
def getTopKeys : JsValue → List String
  | .obj fs => fs.map (·.1)
  | _ => []

/-- `extractAddresses` from `src/index.http.js`: known blocks, then a
recursive walk scoring objects against the address vocabulary (≥ 3
matching keys), then per-candidate normalisation (the trailing spread
lets the candidate's own keys override the normalised ones). -/
def extractAddressesHttp (p : JsValue) : List JsValue :=
  let blocks :=
    (if (p.get "address").truthy && (p.get "address").isObjectType then
      [mkObjWithSpread [("addressType", .str "SEDE")] (p.get "address")]
    else []) ++
    (match p.get "allOffices" with
    | .arr offices => offices.map (fun o =>
        let addr := jsOr (o.get "address") o
        mkObjWithSpread [("addressType", jsOr (o.get "officeType") (.str "OFFICE"))] addr)
    | _ => [])
  let walked := (walkNodes p []).filterMap (fun nodePath =>
    match nodePath.1 with
    | .obj fs =>
      let keys := (JsValue.obj fs |> getTopKeys).map strToLower
      let score := addressHints.foldl (fun s h => s + (if keys.contains h then 1 else 0)) 0
      if 3 ≤ score then
        let pathStr := String.intercalate "." nodePath.2
        let ty := if jsIncludes pathStr "registered" then "SEDE"
          else if jsIncludes pathStr "ul" then "UL" else "OFFICE"
        some (mkObjWithSpread [("addressType", .str ty)] (.obj fs))
      else none
    | _ => none)
  (blocks ++ walked).map (fun a =>
    mkObjWithSpread
      [("addressType", jsOr (a.get "addressType") .null),
        ("street", jsOr (jsOr (jsOr (a.get "street") (a.get "streetName"))
          (a.get "indirizzo")) .null),
        ("zipCode", jsOr (jsOr (jsOr (a.get "zipCode") (a.get "zip")) (a.get "cap")) .null),
        ("town", jsOr (jsOr (jsOr (a.get "town") (a.get "city")) (a.get "comune")) .null),
        ("province", jsOr (jsOr (jsOr ((a.get "province").get "code") (a.get "provincia"))
          (a.get "province")) .null),
        ("region", jsOr (jsOr (jsOr ((a.get "region").get "description") (a.get "regione"))
          (a.get "region")) .null),
        ("country", jsOr (jsOr (jsOr ((a.get "country").get "code") (a.get "country"))
          (a.get "stato")) .null)] a)

/-- `extractAteco` from `src/index.http.js`. -/
def extractAteco (p : JsValue) : List JsValue :=
  let ateco := p.get "atecoClassification"
  if !ateco.truthy then []
  else
    (if (ateco.get "ateco").truthy then
      [JsValue.obj [("ateco_code", (ateco.get "ateco").get "code"),
        ("ateco_description", (ateco.get "ateco").get "description"),
        ("type", .str "primary")]]
    else []) ++
    (if (ateco.get "secondaryAteco").truthy then
      [JsValue.obj [("ateco_code", ateco.get "secondaryAteco"),
        ("ateco_description", .null), ("type", .str "secondary")]]
    else []) ++
    (if (ateco.get "ateco2022").truthy then
      [JsValue.obj [("ateco_code", (ateco.get "ateco2022").get "code"),
        ("ateco_description", (ateco.get "ateco2022").get "description"),
        ("type", .str "ateco2022")]]
    else []) ++
    (if (ateco.get "secondaryAteco2022").truthy then
      [JsValue.obj [("ateco_code", ateco.get "secondaryAteco2022"),
        ("ateco_description", .null), ("type", .str "secondary2022")]]
    else [])

/- ------------------ financial extractor, CLI variant ------------------ -/

/-- The aggregate-values section map of `extractBalanceEntries` in
`src/index.js`. -/
def jsAggregateMaps : List (List String × String) :=
  [(["assetsAggregateValues"], "SP_A"),
    (["liabilitiesAggregateValues"], "SP_P"),
    (["incomeStatementAggregateValues"], "CE")]

/-- The legacy detail-group vocabulary of `extractBalanceEntries` in
`src/index.js`. -/
def jsDetailGroups : List String :=
  ["intangibleFixedAssets", "tangibleFixedAssets", "financialFixedAssets",
    "credits", "inventory", "cashEquivalents", "debts", "financialAssets",
    "productionValue", "productionCosts", "revenuesFinancialCharges", "annualResult"]

/-- The statement guess for a detail-group name in `src/index.js`. -/
def jsGuessStatement (g : String) : String :=
  if ["debts", "liabilities", "financialCharges", "productionCosts"].any
      (fun s => jsIncludes g s) then "SP_P"
  else if ["productionValue", "revenues", "annualResult"].any
      (fun s => jsIncludes g s) then "CE"
  else "SP_A"

/-- Pass 1 of the CLI financial extractor: aggregate-values sections
mapped 1:1 onto statements. -/
def jsBalanceTier1 (agg year cur : JsValue) : List BEntry :=
  jsAggregateMaps.flatMap (fun m =>
    let o := safeGet agg m.1
    if o.truthy && o.isObjectType then
      o.jsEntries.map (fun cv =>
        mkBEntry year (.str m.2) (.str cv.1) .undef
          (if jsTypeof cv.2 == "number" then cv.2 else .null)
          cur (.str (String.intercalate "." m.1)) .undef)
    else [])

/-- Pass 2 of the CLI financial extractor: legacy detail groups with a
keyword-guessed statement. -/
def jsBalanceTier2 (agg year cur : JsValue) : List BEntry :=
  jsDetailGroups.flatMap (fun g =>
    let o := agg.get g
    if o.truthy && o.isObjectType then
      o.jsEntries.map (fun cv =>
        mkBEntry year (.str (jsGuessStatement g)) (.str cv.1) .undef
          (if jsTypeof cv.2 == "number" then cv.2 else .null)
          cur (.str ("balance." ++ g)) .undef)
    else [])

/-- `const year = payload?.balance?.year || payload?.fiscalYear ||
payload?.year` of the CLI extractor. -/
def jsBalanceYear (payload : JsValue) : JsValue :=
  jsOr (jsOr ((payload.get "balance").get "year") (payload.get "fiscalYear"))
    (payload.get "year")

/-- `const cur = payload?.balance?.currency || 'EUR'`. -/
def jsBalanceCur (payload : JsValue) : JsValue :=
  jsOr ((payload.get "balance").get "currency") (.str "EUR")

/-- `const agg = payload?.balance || payload?.financialStatements || {}`. -/
def jsBalanceAgg (payload : JsValue) : JsValue :=
  jsOr (jsOr (payload.get "balance") (payload.get "financialStatements")) (.obj [])

/-- The pass-1 candidates of the CLI extractor for a payload. -/
def jsTier1Of (payload : JsValue) : List BEntry :=
  jsBalanceTier1 (jsBalanceAgg payload) (jsBalanceYear payload) (jsBalanceCur payload)

/-- The pass-2 candidates of the CLI extractor for a payload. -/
def jsTier2Of (payload : JsValue) : List BEntry :=
  jsBalanceTier2 (jsBalanceAgg payload) (jsBalanceYear payload) (jsBalanceCur payload)

/-- `extractBalanceEntries` from `src/index.js`: both passes always run
and push into the same `entries` array (there is no emptiness guard
between them), then candidates without a truthy year are filtered out. -/
def extractBalanceEntriesJs (payload : JsValue) : List BEntry :=
  (jsTier1Of payload ++ jsTier2Of payload).filter (fun e => e.year.truthy)

/- ----------------- financial extractor, HTTP variant ------------------ -/

/-- Tier-1 named statement sections of `src/index.http.js`
(`sectionMappings`): `(section, statement, description)`. -/
def httpSectionMappings : List (String × String × String) :=
  [("stato_patrimoniale_attivo", "SP_A", "Stato Patrimoniale Attivo"),
    ("stato_patrimoniale_passivo", "SP_P", "Stato Patrimoniale Passivo"),
    ("conto_economico", "CE", "Conto Economico")]

/-- Tier-2 legacy "euromar" vocabulary of `src/index.http.js`
(`euromarSectionMappings`). -/
def httpEuromarMappings : List (String × String × String) :=
  [("assetsAggregateValues", "SP_A", "Aggregati Attivo"),
    ("intangibleFixedAssets", "SP_A", "Immobilizzazioni Immateriali"),
    ("tangibleFixedAssets", "SP_A", "Immobilizzazioni Materiali"),
    ("cashEquivalents", "SP_A", "Disponibilità Liquide"),
    ("credits", "SP_A", "Crediti"),
    ("liabilitiesAggregateValues", "SP_P", "Aggregati Passivo"),
    ("netWorth", "SP_P", "Patrimonio Netto"),
    ("debts", "SP_P", "Debiti"),
    ("incomeStatementAggregateValues", "CE", "Aggregati Conto Economico"),
    ("productionValue", "CE", "Valore della Produzione"),
    ("productionCosts", "CE", "Costi della Produzione"),
    ("financialIncomeAndCharges", "CE", "Proventi e Oneri Finanziari"),
    ("extraordinaryIncomeAndCharges", "CE", "Proventi e Oneri Straordinari")]

/-- One mapping pass of the HTTP financial extractor: each mapped
section that is an array contributes its `{code, value|amount}` items. -/
def httpScanSections (data defaultYear : JsValue)
    (maps : List (String × String × String)) : List BEntry :=
  maps.flatMap (fun m =>
    match data.get m.1 with
    | .arr items => items.filterMap (fun item =>
        if (item.get "code").truthy &&
            ((item.get "value") != JsValue.undef || (item.get "amount") != JsValue.undef) then
          some (mkBEntry defaultYear (.str m.2.1) (item.get "code")
            (.str (m.2.2 ++ " - " ++ jsToString (item.get "code")))
            (jsNullish (item.get "value") (item.get "amount"))
            (.str "EUR") (.str m.1) .undef)
        else none)
    | _ => [])

/-- Tier 3 of the HTTP financial extractor: recursive scan for keys
matching `CODE_RE` paired with numeric or string values; year guessed
from the JSON path, statement from a code-prefix heuristic. -/
def httpCodeScan (data defaultYear : JsValue) : List BEntry :=
  (walkNodes data []).flatMap (fun nodePath =>
    nodePath.1.jsEntries.filterMap (fun kv =>
      if codeRe kv.1 && (jsTypeof kv.2 == "number" || jsTypeof kv.2 == "string") then
        let yearGuess := yearScan (String.intercalate "." nodePath.2).toList
        some (mkBEntry
          (match yearGuess with
            | some y => .num y
            | none => defaultYear)
          (.str (if charsHaveStart "IPL".toList kv.1.toList then "SP_P"
            else if charsHaveStart "IIC1".toList kv.1.toList then "CE" else "SP_A"))
          (.str kv.1)
          (.str ("Voce di bilancio - " ++ kv.1))
          (if jsTypeof kv.2 == "number" then kv.2 else jsNumberOf kv.2)
          (.str "EUR")
          (.str (String.intercalate "." (nodePath.2 ++ [kv.1])))
          .undef)
      else none))

/-- `const defaultYear = payload?.year || payload?.fiscalYear || 2024`. -/
def httpDefaultYear (payload : JsValue) : JsValue :=
  jsOr (jsOr (payload.get "year") (payload.get "fiscalYear")) (.num 2024)

/-- `const data = payload?.data || payload`. -/
def httpBalanceData (payload : JsValue) : JsValue := jsOr (payload.get "data") payload

/-- The tier-1 candidates of the HTTP extractor for a payload. -/
def httpTier1Of (payload : JsValue) : List BEntry :=
  httpScanSections (httpBalanceData payload) (httpDefaultYear payload) httpSectionMappings

/-- The tier-2 candidates of the HTTP extractor for a payload. -/
def httpTier2Of (payload : JsValue) : List BEntry :=
  httpScanSections (httpBalanceData payload) (httpDefaultYear payload) httpEuromarMappings

/-- The tier-3 candidates of the HTTP extractor for a payload. -/
def httpTier3Of (payload : JsValue) : List BEntry :=
  httpCodeScan (httpBalanceData payload) (httpDefaultYear payload)

/-- `extractBalanceEntries` from `src/index.http.js`: tier 1, then —
only if `entries` is still empty — tier 2, then — only if still empty —
tier 3; finally candidates without a truthy year or code are dropped. -/
def extractBalanceEntriesHttp (payload : JsValue) : List BEntry :=
  let entries := httpTier1Of payload
  let entries := if entries.length == 0 then entries ++ httpTier2Of payload else entries
  let entries := if entries.length == 0 then entries ++ httpTier3Of payload else entries
  entries.filter (fun e => e.year.truthy && e.code.truthy)

/- ------------------------------ upserts ------------------------------ -/

/-- `insert into companies … on conflict (azienda_id) do update set …`:
every projection column of the conflicting row is overwritten. -/
def upsertCompanyRows (rows : List CompanyRow) (r : CompanyRow) : List CompanyRow :=
  if rows.any (fun c => c.azienda_id == r.azienda_id) then
    rows.map (fun c => if c.azienda_id == r.azienda_id then r else c)
  else rows ++ [r]

/-- The `companies` row built by `upsertCompany` in `src/index.js`. -/
def companyRowJs (azienda_id : String) (payload : JsValue) : CompanyRow :=
  let details := jsOr (payload.get "companyDetails") (.obj [])
  { azienda_id := azienda_id,
    vat_code := jsOr (jsOr (details.get "vatCode") (payload.get "vatCode")) .null,
    tax_code := jsOr (jsOr (details.get "taxCode") (payload.get "taxCode")) .null,
    company_name := jsOr (jsOr (details.get "companyName") (payload.get "companyName")) .null,
    legal_form := jsOr (jsOr (safeGet payload ["legalForm", "description"])
      (details.get "legalForm")) .null,
    status := jsOr (safeGet payload ["companyStatus", "description"]) .null,
    cciaa := jsOr (jsOr (safeGet payload ["chamberOfCommerce", "code"])
      (details.get "cciaa")) .null,
    rea_code := jsOr (details.get "reaCode") .null,
    country_code := jsOr (safeGet payload ["address", "country", "code"]) .null }

/-- `upsertCompany` from `src/index.js` (the returned identifier is
recomputed by the caller model via `computeAziendaId`). -/
def upsertCompanyJsDb (db : Db) (fresh : String) (payload : JsValue) : Db :=
  { db with companies :=
      upsertCompanyRows db.companies (companyRowJs (computeAziendaId fresh payload) payload) }

/-- The `companies` row built by `upsertCompany` in `src/index.http.js`
(also probes the `data.`-nested shape). -/
def companyRowHttp (azienda_id : String) (payload : JsValue) : CompanyRow :=
  let details := jsOr (jsOr (payload.get "companyDetails")
    (safeGet payload ["data", "companyDetails"])) (.obj [])
  let data := jsOr (payload.get "data") payload
  { azienda_id := azienda_id,
    vat_code := jsOr (jsOr (jsOr (details.get "vatCode") (payload.get "vatCode"))
      (data.get "vatCode")) .null,
    tax_code := jsOr (jsOr (jsOr (details.get "taxCode") (payload.get "taxCode"))
      (data.get "taxCode")) .null,
    company_name := jsOr (jsOr (jsOr (details.get "companyName") (payload.get "companyName"))
      (data.get "companyName")) .null,
    legal_form := jsOr (jsOr (jsOr (safeGet payload ["legalForm", "description"])
      (safeGet data ["legalForm", "description"])) (details.get "legalForm")) .null,
    status := jsOr (jsOr (safeGet payload ["companyStatus", "description"])
      (safeGet data ["companyStatus", "description"])) .null,
    cciaa := jsOr (jsOr (jsOr (safeGet payload ["chamberOfCommerce", "code"])
      (safeGet data ["chamberOfCommerce", "code"])) (details.get "cciaa")) .null,
    rea_code := jsOr (jsOr (details.get "reaCode") (data.get "reaCode")) .null,
    country_code := jsOr (jsOr (safeGet payload ["address", "country", "code"])
      (safeGet data ["address", "country", "code"])) .null }

/-- `upsertCompany` from `src/index.http.js`. -/
def upsertCompanyHttpDb (db : Db) (fresh : String) (payload : JsValue) : Db :=
  { db with companies :=
      (upsertCompanyRows db.companies
        (companyRowHttp (computeAziendaIdHttp fresh payload) payload)) }

/-- `insert … on conflict do nothing` against `company_versions`: the
row is skipped only when it collides on a *declared* unique constraint,
and the schema declares only the `version_id` primary key (fresh on
every insert) — there is no unique constraint on
`(azienda_id, content_hash)`. -/
def insertVersionOnConflictDoNothing (rows : List VersionRow) (r : VersionRow) :
    List VersionRow :=
  if rows.any (fun v => v.version_id == r.version_id) then rows else rows ++ [r]

/-- `insertCompanyVersion` from `src/index.js`. -/
def insertCompanyVersionJsDb (db : Db) (freshVid azienda eff : String) (raw : JsValue) :
    Db :=
  { db with company_versions :=
      (insertVersionOnConflictDoNothing db.company_versions
        ⟨freshVid, azienda, eff, objHash raw, raw⟩) }

/-- `insertCompanyVersion` from `src/index.http.js`: a plain insert with
no conflict handling at all. -/
def insertCompanyVersionHttpDb (db : Db) (freshVid azienda eff : String) (raw : JsValue) :
    Db :=
  { db with company_versions :=
      db.company_versions ++ [⟨freshVid, azienda, eff, objHash raw, raw⟩] }

/-- `insertRawSection` (both variants): a plain insert. -/
def insertRawSectionDb (db : Db) (azienda sec eff : String) (raw : JsValue) : Db :=
  { db with raw_sections := db.raw_sections ++ [⟨azienda, sec, eff, raw⟩] }

/-- The scalar-field promotion loop of `upsertContacts` in
`src/index.js`: every non-null scalar entry goes through
`ensureColumn`, and a `createdColumns` entry is pushed only when the
column was created. -/
def contactsPromoteJs (cols : List (String × String)) (rep : Report) (c : JsValue) :
    List (String × String) × Report :=
  c.jsEntries.foldl
    (fun acc kv =>
      if kv.2 != JsValue.null && jsTypeof kv.2 != "object" then
        let r := ensureColumnJs acc.1 "contacts" kv.1 kv.2
        (r.1,
          if r.2.created then
            { acc.2 with createdColumns :=
                acc.2.createdColumns ++ [⟨"contacts", r.2.created, r.2.column, r.2.pgType⟩] }
          else acc.2)
      else acc)
    (cols, rep)

/-- `upsertContacts` from `src/index.js`. -/
def upsertContactsJsDb (db : Db) (azienda : String) (c : JsValue) (eff : String)
    (rep : Report) : Db × Report :=
  let pr := contactsPromoteJs db.infoColumns rep c
  ({ db with
      infoColumns := pr.1,
      contacts := (db.contacts ++
        [⟨azienda, eff, c.get "phone", c.get "email", c.get "pec", c.get "website", c⟩]) },
    pr.2)

/-- The promotion loop of `upsertContacts` in `src/index.http.js`: the
four canonical keys are excluded, and the `createdColumns` push is
unconditional. -/
def contactsPromoteHttp (cols : List (String × String)) (rep : Report) (c : JsValue) :
    List (String × String) × Report :=
  c.jsEntries.foldl
    (fun acc kv =>
      if kv.2 != JsValue.null && jsTypeof kv.2 != "object" &&
          !(["phone", "email", "pec", "website"].contains kv.1) then
        let r := ensureColumnHttp acc.1 "contacts" kv.1 kv.2
        (r.1, { acc.2 with createdColumns :=
            acc.2.createdColumns ++ [⟨"contacts", r.2.created, r.2.column, r.2.pgType⟩] })
      else acc)
    (cols, rep)

/-- `upsertContacts` from `src/index.http.js`. -/
def upsertContactsHttpDb (db : Db) (azienda : String) (c : JsValue) (eff : String)
    (rep : Report) : Db × Report :=
  let pr := contactsPromoteHttp db.infoColumns rep c
  ({ db with
      infoColumns := pr.1,
      contacts := (db.contacts ++
        [⟨azienda, eff, c.get "phone", c.get "email", c.get "pec", c.get "website", c⟩]) },
    pr.2)

/-- The keys excluded from promotion by `upsertAddresses` in
`src/index.js`. -/
def jsAddrExcluded : List String :=
  ["street", "zipCode", "town", "province", "region", "country", "addressType"]

/-- The `addresses` row built by `upsertAddresses` in `src/index.js`. -/
def addrRowJs (azienda eff : String) (addr : JsValue) : AddressRow :=
  { azienda_id := azienda, effective_date := eff,
    address_type := jsOr (addr.get "addressType") .null,
    street := jsOr (jsOr (addr.get "street") (addr.get "streetName")) .null,
    zip_code := jsOr (addr.get "zipCode") .null,
    town := jsOr (addr.get "town") .null,
    province := jsOr (jsOr (addr.get "province") ((addr.get "province").get "code")) .null,
    region := jsOr (jsOr (addr.get "region") ((addr.get "region").get "description")) .null,
    country := jsOr (jsOr (addr.get "country") ((addr.get "country").get "code")) .null,
    raw_json := addr }

/-- One address iteration of `upsertAddresses` in `src/index.js`. -/
def addressStepJs (azienda globalFallback : String)
    (acc : List (String × String) × List AddressRow × Report) (addr : JsValue) :
    List (String × String) × List AddressRow × Report :=
  let eff := effectiveDateForSection "addresses" addr globalFallback
  let pr := addr.jsEntries.foldl
    (fun (pa : List (String × String) × Report) kv =>
      if kv.2 != JsValue.null && jsTypeof kv.2 != "object" &&
          !(jsAddrExcluded.contains kv.1) then
        let r := ensureColumnJs pa.1 "addresses" kv.1 kv.2
        (r.1,
          if r.2.created then
            { pa.2 with createdColumns :=
                pa.2.createdColumns ++ [⟨"addresses", r.2.created, r.2.column, r.2.pgType⟩] }
          else pa.2)
      else pa)
    (acc.1, acc.2.2)
  (pr.1, acc.2.1 ++ [addrRowJs azienda eff addr], pr.2)

/-- `upsertAddresses` from `src/index.js`. -/
def upsertAddressesJsDb (db : Db) (azienda : String) (list : List JsValue) (rep : Report)
    (globalFallback : String) : Db × Report :=
  let acc := list.foldl (addressStepJs azienda globalFallback)
    (db.infoColumns, db.addresses, rep)
  ({ db with infoColumns := acc.1, addresses := acc.2.1 }, acc.2.2)

/-- The keys excluded from promotion by `upsertAddresses` in
`src/index.http.js`. -/
def httpAddrExcluded : List String :=
  ["street", "streetName", "zipCode", "town", "province", "region", "country",
    "addressType"]

/-- The `addresses` row built by `upsertAddresses` in
`src/index.http.js`. -/
def addrRowHttp (azienda eff : String) (addr : JsValue) : AddressRow :=
  { azienda_id := azienda, effective_date := eff,
    address_type := jsOr (addr.get "addressType") .null,
    street := jsOr (jsOr (addr.get "street") (addr.get "streetName")) .null,
    zip_code := jsOr (addr.get "zipCode") .null,
    town := jsOr (addr.get "town") .null,
    province := jsOr (jsOr ((addr.get "province").get "code") (addr.get "province")) .null,
    region := jsOr (jsOr ((addr.get "region").get "description") (addr.get "region")) .null,
    country := jsOr (jsOr ((addr.get "country").get "code") (addr.get "country")) .null,
    raw_json := addr }

/-- One address iteration of `upsertAddresses` in `src/index.http.js`
(the `createdColumns` push is unconditional). -/
def addressStepHttp (azienda globalFallback : String)
    (acc : List (String × String) × List AddressRow × Report) (addr : JsValue) :
    List (String × String) × List AddressRow × Report :=
  let eff := effectiveDateForSection "addresses" addr globalFallback
  let pr := addr.jsEntries.foldl
    (fun (pa : List (String × String) × Report) kv =>
      if kv.2 != JsValue.null && jsTypeof kv.2 != "object" &&
          !(httpAddrExcluded.contains kv.1) then
        let r := ensureColumnHttp pa.1 "addresses" kv.1 kv.2
        (r.1, { pa.2 with createdColumns :=
            pa.2.createdColumns ++ [⟨"addresses", r.2.created, r.2.column, r.2.pgType⟩] })
      else pa)
    (acc.1, acc.2.2)
  (pr.1, acc.2.1 ++ [addrRowHttp azienda eff addr], pr.2)

/-- `upsertAddresses` from `src/index.http.js`. -/
def upsertAddressesHttpDb (db : Db) (azienda : String) (list : List JsValue) (rep : Report)
    (globalFallback : String) : Db × Report :=
  let acc := list.foldl (addressStepHttp azienda globalFallback)
    (db.infoColumns, db.addresses, rep)
  ({ db with infoColumns := acc.1, addresses := acc.2.1 }, acc.2.2)

/-- `upsertAteco` from `src/index.http.js` (each row gets a fresh
`uuidv4()` id, modelled by the indexed supply `freshA`). -/
def upsertAtecoDb (db : Db) (azienda : String) (entries : List JsValue) (eff : String)
    (freshA : Nat → String) : Db :=
  { db with ateco := db.ateco ++
      ((List.range entries.length).zip entries).map (fun p =>
        ⟨freshA p.1, azienda, eff, p.2.get "ateco_code", p.2.get "ateco_description", p.2⟩) }

/-- The natural-key comparison of the `balance_entries` upsert:
`(azienda_id, year, statement, code)`. -/
def balanceKeyEq (a b : BalanceRow) : Bool :=
  a.azienda_id == b.azienda_id && a.year == b.year && a.statement == b.statement &&
    a.code == b.code

/-- The column overwrite of the CLI `on conflict … do update set`:
description, amount, currency, source_path, note — `content_hash` is
*not* in the update list, and the key columns are untouched. -/
def balUpdateJs (o r : BalanceRow) : BalanceRow :=
  { o with
    description := r.description, amount := r.amount, currency := r.currency,
    source_path := r.source_path, note := r.note }

/-- `insert into balance_entries … on conflict (azienda_id, year,
statement, code) do update set description, amount, currency,
source_path, note`. -/
def applyBalanceUpsertJs (rows : List BalanceRow) (r : BalanceRow) : List BalanceRow :=
  if rows.any (fun o => balanceKeyEq o r) then
    rows.map (fun o => if balanceKeyEq o r then balUpdateJs o r else o)
  else rows ++ [r]

/-- The HTTP `upsert('balance_entries', …, 'azienda_id,year,statement,code')`:
all provided columns, `content_hash` included, are overwritten. -/
def applyBalanceUpsertHttp (rows : List BalanceRow) (r : BalanceRow) : List BalanceRow :=
  if rows.any (fun o => balanceKeyEq o r) then
    rows.map (fun o => if balanceKeyEq o r then r else o)
  else rows ++ [r]

/-- `insert into unmapped_codes … on conflict (code) do update set
last_seen_at = now(), occurrences = occurrences + 1` (CLI variant). -/
def upsertUnmappedJs (rows : List UnmappedRow) (code : String) (stGuess : JsValue) :
    List UnmappedRow :=
  if rows.any (fun u => u.code == code) then
    rows.map (fun u => if u.code == code then { u with occurrences := u.occurrences + 1 }
      else u)
  else rows ++ [⟨code, stGuess, 1⟩]

/-- The HTTP `upsert('unmapped_codes', [{code, statement_guess}], 'code')`:
only the provided columns are merged (no occurrence increment). -/
def upsertUnmappedHttp (rows : List UnmappedRow) (code : String) (stGuess : JsValue) :
    List UnmappedRow :=
  if rows.any (fun u => u.code == code) then
    rows.map (fun u => if u.code == code then { u with statement_guess := stGuess } else u)
  else rows ++ [⟨code, stGuess, 1⟩]

/-- The `balance_entries` row an entry is stored as, given the resolved
description: the key columns, null-coalesced value columns, and
`hash(row)` as content hash. -/
def balanceRowOf (azienda : String) (row : BEntry) (desc : JsValue) : BalanceRow :=
  ⟨azienda, row.year, row.statement, row.code, desc, jsNullish row.amount .null,
    jsNullish row.currency .null, jsNullish row.source_path .null,
    jsNullish row.note .null, objHash row.toJs⟩

/-- The CLI description resolution: `row.description || null`, enriched
from `legend_codes` when falsy (the CLI also re-checks `row.code`). -/
def jsLegendDesc (legend : List (String × String)) (row : BEntry) : JsValue :=
  let desc0 := jsOr row.description .null
  if !desc0.truthy && row.code.truthy then
    match legend.lookup (jsToString row.code) with
    | some d => JsValue.str d
    | none => desc0
  else desc0

/-- The CLI unmapped-code tracking: on a failed legend lookup during
enrichment, upsert the code with a +1 occurrence. -/
def jsTrackUnmapped (legend : List (String × String)) (umc : List UnmappedRow)
    (row : BEntry) : List UnmappedRow :=
  if (!(jsOr row.description .null).truthy && row.code.truthy) &&
      (legend.lookup (jsToString row.code)).isNone then
    upsertUnmappedJs umc (jsToString row.code) row.statement
  else umc

/-- One row iteration of `upsertBalanceEntries` in `src/index.js`: the
missing-key guard (warning + skip), legend enrichment, unmapped-code
tracking, then the natural-key upsert. The accumulator is
`(balance_entries, unmapped_codes, report)`. -/
def balanceRowStepJs (legend : List (String × String)) (azienda : String)
    (acc : List BalanceRow × List UnmappedRow × Report) (row : BEntry) :
    List BalanceRow × List UnmappedRow × Report :=
  if !row.year.truthy || !row.statement.truthy || !row.code.truthy then
    (acc.1, acc.2.1,
      { acc.2.2 with warnings :=
          acc.2.2.warnings ++ [⟨"balance_entries", "missing_keys", row⟩] })
  else
    (applyBalanceUpsertJs acc.1 (balanceRowOf azienda row (jsLegendDesc legend row)),
      jsTrackUnmapped legend acc.2.1 row, acc.2.2)

/-- `upsertBalanceEntries` from `src/index.js`. -/
def upsertBalanceEntriesJsDb (db : Db) (azienda : String) (entries : List BEntry)
    (rep : Report) : Db × Report :=
  let acc := entries.foldl (balanceRowStepJs db.legend_codes azienda)
    (db.balance_entries, db.unmapped_codes, rep)
  ({ db with balance_entries := acc.1, unmapped_codes := acc.2.1 }, acc.2.2)

/-- The HTTP description resolution (`maybeSingle` legend lookup when
the description is falsy; no extra `row.code` check). -/
def httpLegendDesc (legend : List (String × String)) (row : BEntry) : JsValue :=
  let desc0 := jsOr row.description .null
  if !desc0.truthy then
    match legend.lookup (jsToString row.code) with
    | some d => JsValue.str d
    | none => desc0
  else desc0

/-- The HTTP unmapped-code tracking (merge upsert, no occurrence
increment). -/
def httpTrackUnmapped (legend : List (String × String)) (umc : List UnmappedRow)
    (row : BEntry) : List UnmappedRow :=
  if (!(jsOr row.description .null).truthy) &&
      (legend.lookup (jsToString row.code)).isNone then
    upsertUnmappedHttp umc (jsToString row.code) row.statement
  else umc

/-- One row iteration of `upsertBalanceEntries` in `src/index.http.js`. -/
def balanceRowStepHttp (legend : List (String × String)) (azienda : String)
    (acc : List BalanceRow × List UnmappedRow × Report) (row : BEntry) :
    List BalanceRow × List UnmappedRow × Report :=
  if !row.year.truthy || !row.statement.truthy || !row.code.truthy then
    (acc.1, acc.2.1,
      { acc.2.2 with warnings :=
          acc.2.2.warnings ++ [⟨"balance_entries", "missing_keys", row⟩] })
  else
    (applyBalanceUpsertHttp acc.1 (balanceRowOf azienda row (httpLegendDesc legend row)),
      httpTrackUnmapped legend acc.2.1 row, acc.2.2)

/-- `upsertBalanceEntries` from `src/index.http.js`. -/
def upsertBalanceEntriesHttpDb (db : Db) (azienda : String) (entries : List BEntry)
    (rep : Report) : Db × Report :=
  let acc := entries.foldl (balanceRowStepHttp db.legend_codes azienda)
    (db.balance_entries, db.unmapped_codes, rep)
  ({ db with balance_entries := acc.1, unmapped_codes := acc.2.1 }, acc.2.2)

/- ----------------------------- orchestrators ------------------------- -/

/-- The `ingestions` row written by the CLI `catch` block:
`(ingestion_id, 'it-full', …, 'ERROR', jsonb_build_object('error', msg))`,
with no `azienda_id`. -/
def errorRow (ingId msg : String) : IngestionRow :=
  ⟨ingId, "it-full", none, "ERROR", .errorObj msg⟩

/-- CLI error outcome: the open transaction never commits (its writes
are discarded when the pool is torn down), while the `ERROR` run row is
written on a separate pooled connection — so the store is the *initial*
store plus that one row. -/
def jsFail (db0 : Db) (ingId msg : String) : Db :=
  { db0 with ingestions := db0.ingestions ++ [errorRow ingId msg] }

/-- HTTP error outcome: there is no transaction, so the store keeps all
writes made so far, plus the best-effort `ERROR` run row. -/
def httpFail (db : Db) (ingId msg : String) : Db :=
  { db with ingestions := db.ingestions ++ [errorRow ingId msg] }

/-- `main` from `src/index.js`, as a pure state transformer.
`failAt = some k` models an exception raised at persistence step `k`
(1 company upsert, 2 version insert, 3 raw-section insert, 4 contacts,
5 addresses, 6 balance entries, 7 ingestion-row insert, 8 commit);
`failAt = none` is the exception-free run. `now` is the process clock,
`freshAz`/`freshVid` the `uuidv4()`/`gen_random_uuid()` draws, `ingId`
the run's `ingestionId`. All writes before `commit` happen inside one
transaction: any failure rolls them back (`db0` is kept). -/
def mainJs (failAt : Option Nat) (now ingId freshAz freshVid : String)
    (payload : JsValue) (db0 : Db) : Db :=
  if failAt == some 1 then jsFail db0 ingId "upsertCompany failed" else
  let azienda_id := computeAziendaId freshAz payload
  let db := upsertCompanyJsDb db0 freshAz payload
  let globalEffective := effectiveDateForSection "root" payload now
  if failAt == some 2 then jsFail db0 ingId "insertCompanyVersion failed" else
  let db := insertCompanyVersionJsDb db freshVid azienda_id globalEffective payload
  if failAt == some 3 then jsFail db0 ingId "insertRawSection failed" else
  let db := insertRawSectionDb db azienda_id "root" globalEffective payload
  if failAt == some 4 then jsFail db0 ingId "upsertContacts failed" else
  let report := initialReport ingId
  let contacts := extractContactsJs payload
  let cr :=
    if contacts.truthy then
      let u := upsertContactsJsDb db azienda_id contacts globalEffective report
      (u.1, { u.2 with inserts := bump u.2.inserts "contacts" 1 })
    else (db, { report with skips := bump report.skips "contacts" 1 })
  if failAt == some 5 then jsFail db0 ingId "upsertAddresses failed" else
  let addresses := extractAddressesJs payload
  let ar :=
    if addresses.length != 0 then
      let u := upsertAddressesJsDb cr.1 azienda_id addresses cr.2 globalEffective
      (u.1, { u.2 with inserts := bump u.2.inserts "addresses" addresses.length })
    else (cr.1, { cr.2 with skips := bump cr.2.skips "addresses" 1 })
  if failAt == some 6 then jsFail db0 ingId "upsertBalanceEntries failed" else
  let balanceEntries := extractBalanceEntriesJs payload
  let br :=
    if balanceEntries.length != 0 then
      let u := upsertBalanceEntriesJsDb ar.1 azienda_id balanceEntries ar.2
      (u.1, { u.2 with inserts := bump u.2.inserts "balance_entries" balanceEntries.length })
    else (ar.1, { ar.2 with skips := bump ar.2.skips "balance_entries" 1 })
  if failAt == some 7 then jsFail db0 ingId "ingestions insert failed" else
  let status :=
    if balanceEntries.length + (if contacts.truthy then 1 else 0) + addresses.length > 0
    then "UPDATED" else "UNCHANGED"
  let finalReport := { br.2 with status := status }
  let db := { br.1 with ingestions :=
    (br.1.ingestions ++ [⟨ingId, "it-full", some azienda_id, status, .report finalReport⟩]) }
  if failAt == some 8 then jsFail db0 ingId "commit failed" else
  db

/-- `main` from `src/index.http.js`, as a pure state transformer.
`failAt = some k` models an exception at step `k` (1 company upsert,
2 version insert, 3 raw-section insert, 4 contacts, 5 addresses,
6 ateco, 7 balance entries, 8 ingestion-row insert). There is no
transaction: an error keeps every write already made and appends a
best-effort `ERROR` run row. -/
def mainHttp (failAt : Option Nat) (now ingId freshAz freshVid : String)
    (freshAteco : Nat → String) (payload : JsValue) (db0 : Db) : Db :=
  if failAt == some 1 then httpFail db0 ingId "upsertCompany failed" else
  let azienda_id := computeAziendaIdHttp freshAz payload
  let db := upsertCompanyHttpDb db0 freshAz payload
  let globalEffective := effectiveDateForSection "root" payload now
  if failAt == some 2 then httpFail db ingId "insertCompanyVersion failed" else
  let db := insertCompanyVersionHttpDb db freshVid azienda_id globalEffective payload
  if failAt == some 3 then httpFail db ingId "insertRawSection failed" else
  let db := insertRawSectionDb db azienda_id "root" globalEffective payload
  if failAt == some 4 then httpFail db ingId "upsertContacts failed" else
  let report := initialReport ingId
  let contacts := extractContactsHttp payload
  let cr :=
    if contacts.truthy then
      let u := upsertContactsHttpDb db azienda_id contacts globalEffective report
      (u.1, { u.2 with inserts := bump u.2.inserts "contacts" 1 })
    else (db, { report with skips := bump report.skips "contacts" 1 })
  if failAt == some 5 then httpFail cr.1 ingId "upsertAddresses failed" else
  let addresses := extractAddressesHttp payload
  let ar :=
    if addresses.length != 0 then
      let u := upsertAddressesHttpDb cr.1 azienda_id addresses cr.2 globalEffective
      (u.1, { u.2 with inserts := bump u.2.inserts "addresses" addresses.length })
    else (cr.1, { cr.2 with skips := bump cr.2.skips "addresses" 1 })
  if failAt == some 6 then httpFail ar.1 ingId "upsertAteco failed" else
  let atecoEntries := extractAteco payload
  let tr :=
    if atecoEntries.length != 0 then
      (upsertAtecoDb ar.1 azienda_id atecoEntries globalEffective freshAteco,
        { ar.2 with inserts := bump ar.2.inserts "ateco" atecoEntries.length })
    else (ar.1, { ar.2 with skips := bump ar.2.skips "ateco" 1 })
  if failAt == some 7 then httpFail tr.1 ingId "upsertBalanceEntries failed" else
  let balanceEntries := extractBalanceEntriesHttp payload
  let br :=
    if balanceEntries.length != 0 then
      let u := upsertBalanceEntriesHttpDb tr.1 azienda_id balanceEntries tr.2
      (u.1, { u.2 with inserts := bump u.2.inserts "balance_entries" balanceEntries.length })
    else (tr.1, { tr.2 with skips := bump tr.2.skips "balance_entries" 1 })
  if failAt == some 8 then httpFail br.1 ingId "ingestions insert failed" else
  let status :=
    if balanceEntries.length + (if contacts.truthy then 1 else 0) + addresses.length +
        atecoEntries.length > 0
    then "UPDATED" else "UNCHANGED"
  let finalReport := { br.2 with status := status }
  { br.1 with ingestions :=
    (br.1.ingestions ++ [⟨ingId, "it-full", some azienda_id, status, .report finalReport⟩]) }

/- ============================ claim theorems ========================= -/

/-- The terminal status the CLI `main` computes on an exception-free
run: purely a function of the extracted facet counts — version novelty
is not consulted. -/
def jsStatusOf (payload : JsValue) : String :=
  if (extractBalanceEntriesJs payload).length +
      (if (extractContactsJs payload).truthy then 1 else 0) +
      (extractAddressesJs payload).length > 0
  then "UPDATED" else "UNCHANGED"

/-- The terminal status the HTTP `main` computes on an exception-free
run. -/
def httpStatusOf (payload : JsValue) : String :=
  if (extractBalanceEntriesHttp payload).length +
      (if (extractContactsHttp payload).truthy then 1 else 0) +
      (extractAddressesHttp payload).length + (extractAteco payload).length > 0
  then "UPDATED" else "UNCHANGED"

theorem jsStatusOf_cases (payload : JsValue) :
    jsStatusOf payload = "UPDATED" ∨ jsStatusOf payload = "UNCHANGED" := by
  unfold jsStatusOf
  by_cases h : (extractBalanceEntriesJs payload).length +
      (if (extractContactsJs payload).truthy then 1 else 0) +
      (extractAddressesJs payload).length > 0
  · exact Or.inl (if_pos h)
  · exact Or.inr (if_neg h)

theorem httpStatusOf_cases (payload : JsValue) :
    httpStatusOf payload = "UPDATED" ∨ httpStatusOf payload = "UNCHANGED" := by
  unfold httpStatusOf
  by_cases h : (extractBalanceEntriesHttp payload).length +
      (if (extractContactsHttp payload).truthy then 1 else 0) +
      (extractAddressesHttp payload).length + (extractAteco payload).length > 0
  · exact Or.inl (if_pos h)
  · exact Or.inr (if_neg h)

/-- On any run whose failure point is not one of the eight persistence
steps (in particular the exception-free run), the CLI `main` appends
exactly one `ingestions` row: source `it-full`, the resolved entity id,
and a status computed from the facet counts alone. -/
theorem mainJs_happy_ingestions (failAt : Option Nat)
    (now ingId freshAz freshVid : String) (payload : JsValue) (db0 : Db)
    (hf : ∀ j, 1 ≤ j → j ≤ 8 → failAt ≠ some j) :
    ∃ rep, (mainJs failAt now ingId freshAz freshVid payload db0).ingestions =
      db0.ingestions ++ [⟨ingId, "it-full", some (computeAziendaId freshAz payload),
        jsStatusOf payload, .report rep⟩] := by
  have g : ∀ j, 1 ≤ j → j ≤ 8 → (failAt == some j) = false := fun j h1 h2 =>
    beq_eq_false_iff_ne.mpr (hf j h1 h2)
  cases hc : (extractContactsJs payload).truthy <;>
    cases ha : (extractAddressesJs payload).length != 0 <;>
      cases hb : (extractBalanceEntriesJs payload).length != 0 <;>
        all_goals
          simp only [mainJs, jsStatusOf,
            g 1 (by norm_num) (by norm_num), g 2 (by norm_num) (by norm_num),
            g 3 (by norm_num) (by norm_num), g 4 (by norm_num) (by norm_num),
            g 5 (by norm_num) (by norm_num), g 6 (by norm_num) (by norm_num),
            g 7 (by norm_num) (by norm_num), g 8 (by norm_num) (by norm_num),
            hc, ha, hb, Bool.false_eq_true, if_false, if_true]
          exact ⟨_, rfl⟩

set_option maxHeartbeats 2000000 in
/-- The HTTP analogue of `mainJs_happy_ingestions`. -/
theorem mainHttp_happy_ingestions (failAt : Option Nat)
    (now ingId freshAz freshVid : String) (fA : Nat → String) (payload : JsValue)
    (db0 : Db) (hf : ∀ j, 1 ≤ j → j ≤ 8 → failAt ≠ some j) :
    ∃ rep, (mainHttp failAt now ingId freshAz freshVid fA payload db0).ingestions =
      db0.ingestions ++ [⟨ingId, "it-full", some (computeAziendaIdHttp freshAz payload),
        httpStatusOf payload, .report rep⟩] := by
  have g : ∀ j, 1 ≤ j → j ≤ 8 → (failAt == some j) = false := fun j h1 h2 =>
    beq_eq_false_iff_ne.mpr (hf j h1 h2)
  cases hc : (extractContactsHttp payload).truthy <;>
    cases ha : (extractAddressesHttp payload).length != 0 <;>
      cases ht : (extractAteco payload).length != 0 <;>
        cases hb : (extractBalanceEntriesHttp payload).length != 0 <;>
          all_goals
            simp only [mainHttp, httpStatusOf,
              g 1 (by norm_num) (by norm_num), g 2 (by norm_num) (by norm_num),
              g 3 (by norm_num) (by norm_num), g 4 (by norm_num) (by norm_num),
              g 5 (by norm_num) (by norm_num), g 6 (by norm_num) (by norm_num),
              g 7 (by norm_num) (by norm_num), g 8 (by norm_num) (by norm_num),
              hc, ha, ht, hb, Bool.false_eq_true, if_false, if_true]
            exact ⟨_, rfl⟩

/-- An exception at any of the eight CLI persistence steps yields the
initial store plus a single `ERROR` run row: the in-transaction writes
are discarded, the error record is written outside the transaction. -/
theorem mainJs_fail (k : Nat) (now ingId freshAz freshVid : String) (payload : JsValue)
    (db0 : Db) (h1 : 1 ≤ k) (h2 : k ≤ 8) :
    ∃ msg, mainJs (some k) now ingId freshAz freshVid payload db0 =
      jsFail db0 ingId msg := by
  interval_cases k <;> exact ⟨_, rfl⟩

/-- An exception at any of the eight HTTP steps still appends a
best-effort `ERROR` run row — on top of whatever store state the
already-committed writes produced. -/
theorem mainHttp_fail (k : Nat) (now ingId freshAz freshVid : String)
    (fA : Nat → String) (payload : JsValue) (db0 : Db) (h1 : 1 ≤ k) (h2 : k ≤ 8) :
    ∃ msg dbMid, mainHttp (some k) now ingId freshAz freshVid fA payload db0 =
      httpFail dbMid ingId msg := by
  interval_cases k <;> exact ⟨_, _, rfl⟩

theorem jsFail_ingestions (db0 : Db) (ingId msg : String) :
    (jsFail db0 ingId msg).ingestions = db0.ingestions ++ [errorRow ingId msg] := rfl

set_option maxHeartbeats 2000000 in
/-- None of the HTTP steps preceding a failure writes to `ingestions`,
so the failed run's ingestion table is the initial one plus the single
`ERROR` row. -/
theorem mainHttp_fail_ingestions (k : Nat) (now ingId freshAz freshVid : String)
    (fA : Nat → String) (payload : JsValue) (db0 : Db) (h1 : 1 ≤ k) (h2 : k ≤ 8) :
    ∃ msg, (mainHttp (some k) now ingId freshAz freshVid fA payload db0).ingestions =
      db0.ingestions ++ [errorRow ingId msg] := by
  interval_cases k
  · exact ⟨_, rfl⟩
  · exact ⟨_, rfl⟩
  · exact ⟨_, rfl⟩
  · exact ⟨_, rfl⟩
  · cases hc : (extractContactsHttp payload).truthy <;>
      all_goals
        simp only [mainHttp, hc, Bool.false_eq_true, if_false, if_true]
        exact ⟨_, rfl⟩
  · cases hc : (extractContactsHttp payload).truthy <;>
      cases ha : (extractAddressesHttp payload).length != 0 <;>
        all_goals
          simp only [mainHttp, hc, ha, Bool.false_eq_true, if_false, if_true]
          exact ⟨_, rfl⟩
  · cases hc : (extractContactsHttp payload).truthy <;>
      cases ha : (extractAddressesHttp payload).length != 0 <;>
        cases ht : (extractAteco payload).length != 0 <;>
          all_goals
            simp only [mainHttp, hc, ha, ht, Bool.false_eq_true, if_false, if_true]
            exact ⟨_, rfl⟩
  · cases hc : (extractContactsHttp payload).truthy <;>
      cases ha : (extractAddressesHttp payload).length != 0 <;>
        cases ht : (extractAteco payload).length != 0 <;>
          cases hb : (extractBalanceEntriesHttp payload).length != 0 <;>
            all_goals
              simp only [mainHttp, hc, ha, ht, hb, Bool.false_eq_true, if_false, if_true]
              exact ⟨_, rfl⟩

/-- A payload and a key-permuted copy of the same content. -/
def c1PayloadA : JsValue := .obj [("vatCode", .str "IT123"), ("extra", .num 1)]

/-- The byte-identical content of `c1PayloadA` with the JSON keys in the
opposite order. -/
def c1PayloadB : JsValue := .obj [("extra", .num 1), ("vatCode", .str "IT123")]

/-- C1 — the code at the failing input. The canonical content hash is
key-order-insensitive (first conjunct), yet recording the same content
twice for the same entity leaves **two** `company_versions` rows with
the identical `(azienda_id, content_hash)` pair in both variants: the
schema declares no unique constraint on that pair, so the CLI's
`on conflict do nothing` can never fire (only the always-fresh
`version_id` primary key is declared unique), and the HTTP variant
inserts with no conflict clause at all. The claimed "at most one row per
`(entity_id, content_hash)`, re-ingest is a success-no-op" does not
hold. -/
theorem c1_version_rows_not_deduplicated :
    objHash c1PayloadA = objHash c1PayloadB ∧
    ((insertCompanyVersionJsDb
        (insertCompanyVersionJsDb emptyDb "vid1" "az" "2024-01-01" c1PayloadA)
        "vid2" "az" "2024-01-02" c1PayloadB).company_versions.filter
      (fun v => v.azienda_id == "az" && v.content_hash == objHash c1PayloadA)).length = 2 ∧
    ((insertCompanyVersionHttpDb
        (insertCompanyVersionHttpDb emptyDb "vid1" "az" "2024-01-01" c1PayloadA)
        "vid2" "az" "2024-01-02" c1PayloadB).company_versions.filter
      (fun v => v.azienda_id == "az" && v.content_hash == objHash c1PayloadA)).length = 2 :=
  ⟨rfl, rfl, rfl⟩

/-- C5 — identity resolution is deterministic on natural keys, the VAT
identifier takes priority, and a random identifier is returned only
when neither key is present; stated for both variants. The `fresh`
arguments model the per-invocation random (`uuidv4`) draw, so equality
of results across different `fresh` values is determinism across
invocations and processes. -/
theorem c5_identity_resolution_deterministic :
    (∀ p1 p2 f1 f2, vatOfJs p1 = vatOfJs p2 → (vatOfJs p1).truthy = true →
      computeAziendaId f1 p1 = computeAziendaId f2 p2) ∧
    (∀ p1 p2 f1 f2, (vatOfJs p1).truthy = false → (vatOfJs p2).truthy = false →
      taxOfJs p1 = taxOfJs p2 → (taxOfJs p1).truthy = true →
      computeAziendaId f1 p1 = computeAziendaId f2 p2) ∧
    (∀ p f, (vatOfJs p).truthy = true →
      computeAziendaId f p = uuidv5 (jsTrim (jsToString (vatOfJs p))) NS) ∧
    (∀ p f, (vatOfJs p).truthy = false → (taxOfJs p).truthy = false →
      computeAziendaId f p = f) ∧
    (∀ p1 p2 f1 f2, vatOfHttp p1 = vatOfHttp p2 → (vatOfHttp p1).truthy = true →
      computeAziendaIdHttp f1 p1 = computeAziendaIdHttp f2 p2) ∧
    (∀ p f, (vatOfHttp p).truthy = true →
      computeAziendaIdHttp f p = uuidv5 (jsTrim (jsToString (vatOfHttp p))) NS) ∧
    (∀ p f, (vatOfHttp p).truthy = false → (taxOfHttp p).truthy = false →
      computeAziendaIdHttp f p = f) := by
  refine ⟨?_, ?_, ?_, ?_, ?_, ?_, ?_⟩
  · intro p1 p2 f1 f2 hv ht
    rw [hv] at ht
    simp [computeAziendaId, jsOr, hv, ht]
  · intro p1 p2 f1 f2 hv1 hv2 htx ht
    rw [htx] at ht
    simp [computeAziendaId, jsOr, hv1, hv2, htx, ht]
  · intro p f hv
    simp [computeAziendaId, jsOr, hv]
  · intro p f hv ht
    simp [computeAziendaId, jsOr, hv, ht]
  · intro p1 p2 f1 f2 hv ht
    rw [hv] at ht
    simp [computeAziendaIdHttp, jsOr, hv, ht]
  · intro p f hv
    simp [computeAziendaIdHttp, jsOr, hv]
  · intro p f hv ht
    simp [computeAziendaIdHttp, jsOr, hv, ht]

/-- C5 witness: two payloads carrying the VAT string `"IT9"` at
different positions resolve identically whatever the random draws; a
payload with both identifiers resolves by the VAT one; a payload with
neither returns the random draw. -/
theorem c5_witness :
    computeAziendaId "f1" (.obj [("companyDetails", .obj [("vatCode", .str "IT9")])]) =
      computeAziendaId "f2" (.obj [("vatCode", .str "IT9"), ("taxCode", .str "T1")]) ∧
    computeAziendaId "f3" (.obj [("vatCode", .str "IT9"), ("taxCode", .str "T1")]) =
      uuidv5 "IT9" NS ∧
    computeAziendaId "f4" (.obj [("other", .num 1)]) = "f4" := by
  refine ⟨?_, ?_, ?_⟩
  · exact c5_identity_resolution_deterministic.1
      (.obj [("companyDetails", .obj [("vatCode", .str "IT9")])])
      (.obj [("vatCode", .str "IT9"), ("taxCode", .str "T1")]) "f1" "f2" (by decide) (by decide)
  · exact c5_identity_resolution_deterministic.2.2.1
      (.obj [("vatCode", .str "IT9"), ("taxCode", .str "T1")]) "f3" (by decide)
  · exact c5_identity_resolution_deterministic.2.2.2.1
      (.obj [("other", .num 1)]) "f4" (by decide) (by decide)

/-- A just-appended column is found by the existence probe. -/
theorem hasColumn_append_self (cols : List (String × String)) (t c : String) :
    hasColumn (cols ++ [(t, c)]) t c = true := by
  simp [hasColumn, List.any_append]

/-- C6 counterexample: in the HTTP variant, a call to `ensureColumn` for
a field whose column **already exists** still reports `created: true`
(the function returns `{created: true, …}` unconditionally), refuting
"every later call with the same field name reports `created:false`". -/
theorem c6_http_always_reports_created :
    (ensureColumnHttp [("contacts", "foo")] "contacts" "foo" (.str "x")).2.created = true ∧
    (ensureColumnHttp [("contacts", "foo")] "contacts" "foo" (.str "x")).1 =
      [("contacts", "foo")] :=
  ⟨rfl, rfl⟩

/-- C6 amended — CLI `ensureColumn` is idempotent exactly as claimed:
the first call on an absent column reports `created:true` and appends
the column once; any repeated call for the same field reports
`created:false` and leaves the column set unchanged. In the HTTP
variant the DDL is still idempotent (a repeated call adds nothing), but
the result reports `created:true` every time. -/
theorem c6_ensure_column_idempotent :
    (∀ cols table field sample,
      hasColumn cols table (toSnakeCase field) = false →
      (ensureColumnJs cols table field sample).2.created = true ∧
      (ensureColumnJs cols table field sample).1 = cols ++ [(table, toSnakeCase field)]) ∧
    (∀ cols table field sample sample2,
      ensureColumnJs (ensureColumnJs cols table field sample).1 table field sample2 =
        ((ensureColumnJs cols table field sample).1,
          ⟨false, toSnakeCase field, none⟩)) ∧
    (∀ cols table field sample sample2,
      (ensureColumnHttp (ensureColumnHttp cols table field sample).1 table field sample2).1 =
        (ensureColumnHttp cols table field sample).1 ∧
      (ensureColumnHttp (ensureColumnHttp cols table field sample).1 table field
        sample2).2.created = true) := by
  refine ⟨?_, ?_, ?_⟩
  · intro cols table field sample h
    simp [ensureColumnJs, h]
  · intro cols table field sample sample2
    cases h : hasColumn cols table (toSnakeCase field) with
    | true => simp [ensureColumnJs, h]
    | false => simp [ensureColumnJs, h, hasColumn_append_self]
  · intro cols table field sample sample2
    cases h : hasColumn cols table (toSnakeCase field) with
    | true => simp [ensureColumnHttp, h]
    | false => simp [ensureColumnHttp, h, hasColumn_append_self]

/-- C6 witness: on a store that does not yet have
`contacts.legal_rep_name`, the first CLI call creates the column once
and the second reports `created:false` without adding anything. -/
theorem c6_witness :
    (ensureColumnJs [("contacts", "phone")] "contacts" "legalRepName" (.str "x")).2.created
        = true ∧
    (ensureColumnJs [("contacts", "phone")] "contacts" "legalRepName" (.str "x")).1 =
      [("contacts", "phone"), ("contacts", "legal_rep_name")] ∧
    ensureColumnJs
        (ensureColumnJs [("contacts", "phone")] "contacts" "legalRepName" (.str "x")).1
        "contacts" "legalRepName" (.str "y") =
      ([("contacts", "phone"), ("contacts", "legal_rep_name")],
        ⟨false, "legal_rep_name", none⟩) := by
  refine ⟨?_, ?_, ?_⟩
  · exact (c6_ensure_column_idempotent.1 [("contacts", "phone")] "contacts" "legalRepName"
      (.str "x") (by decide)).1
  · exact (c6_ensure_column_idempotent.1 [("contacts", "phone")] "contacts" "legalRepName"
      (.str "x") (by decide)).2
  · exact c6_ensure_column_idempotent.2.1 [("contacts", "phone")] "contacts" "legalRepName"
      (.str "x") (.str "y")

/-- The C4 counterexample payload: a balance block exposing both an
aggregate-values section (pass 1) and a legacy detail group (pass 2). -/
def c4Payload : JsValue :=
  .obj [("balance", .obj [("year", .num 2023),
    ("assetsAggregateValues", .obj [("A1", .num 5)]),
    ("debts", .obj [("D1", .num 3)])])]

/-- C4 counterexample: on `c4Payload` the CLI financial extractor emits
rows from **both** passes — one from the aggregate mapping and one from
the legacy detail group — so its output is a union of tiers, not the
single first non-empty tier the claim describes. -/
theorem c4_js_passes_are_additive :
    jsTier1Of c4Payload ≠ [] ∧
    jsTier2Of c4Payload ≠ [] ∧
    extractBalanceEntriesJs c4Payload = jsTier1Of c4Payload ++ jsTier2Of c4Payload ∧
    (extractBalanceEntriesJs c4Payload).map (fun e => e.source_path) =
      [.str "assetsAggregateValues", .str "balance.debts"] :=
  ⟨by decide, by decide, rfl, rfl⟩

/-- C4 amended — the HTTP extractor's three tiers are mutually
exclusive exactly as the claim describes: the emitted rows are the
year/code-filtered rows of the first non-empty tier. In the CLI
variant, by contrast, the two mapping passes are additive: every
pass-2 candidate with a truthy year is emitted even when pass 1
produced rows. -/
theorem c4_http_tiers_mutually_exclusive :
    (∀ payload, httpTier1Of payload ≠ [] →
      extractBalanceEntriesHttp payload =
        (httpTier1Of payload).filter (fun e => e.year.truthy && e.code.truthy)) ∧
    (∀ payload, httpTier1Of payload = [] → httpTier2Of payload ≠ [] →
      extractBalanceEntriesHttp payload =
        (httpTier2Of payload).filter (fun e => e.year.truthy && e.code.truthy)) ∧
    (∀ payload, httpTier1Of payload = [] → httpTier2Of payload = [] →
      extractBalanceEntriesHttp payload =
        (httpTier3Of payload).filter (fun e => e.year.truthy && e.code.truthy)) ∧
    (∀ payload e, e ∈ jsTier2Of payload → e.year.truthy = true →
      e ∈ extractBalanceEntriesJs payload) := by
  refine ⟨?_, ?_, ?_, ?_⟩
  · intro payload h1
    simp [extractBalanceEntriesHttp, List.length_eq_zero, h1]
  · intro payload h1 h2
    simp [extractBalanceEntriesHttp, List.length_eq_zero, h1, h2]
  · intro payload h1 h2
    simp [extractBalanceEntriesHttp, List.length_eq_zero, h1, h2]
  · intro payload e he hy
    simp only [extractBalanceEntriesJs, List.mem_filter, List.mem_append]
    exact ⟨Or.inr he, by simp [hy]⟩

/-- A row matches the natural key `(azienda_id, year, statement, code)`. -/
def keyMatches (r : BalanceRow) (az : String) (y st c : JsValue) : Bool :=
  r.azienda_id == az && r.year == y && r.statement == st && r.code == c

/-- No two rows of the list share a natural key. -/
def noDupBalanceKeys : List BalanceRow → Bool
  | [] => true
  | r :: rest => !(rest.any (fun o => balanceKeyEq o r)) && noDupBalanceKeys rest

theorem balanceKeyEq_balUpdateJs_left (o r x : BalanceRow) :
    balanceKeyEq (balUpdateJs o r) x = balanceKeyEq o x := rfl

theorem balanceKeyEq_balUpdateJs_right (x o r : BalanceRow) :
    balanceKeyEq x (balUpdateJs o r) = balanceKeyEq x o := rfl

theorem beq_symm_eq {α : Type} [BEq α] [LawfulBEq α] (a b : α) : (a == b) = (b == a) := by
  cases h : a == b with
  | true =>
    have := eq_of_beq h
    subst this
    simp
  | false =>
    cases h2 : b == a with
    | true =>
      have := eq_of_beq h2
      subst this
      simp at h
    | false => rfl

theorem balanceKeyEq_symm (a b : BalanceRow) : balanceKeyEq a b = balanceKeyEq b a := by
  unfold balanceKeyEq
  rw [beq_symm_eq a.azienda_id b.azienda_id, beq_symm_eq a.year b.year,
    beq_symm_eq a.statement b.statement, beq_symm_eq a.code b.code]

/-- Mapping the conditional in-place update over a list does not change
which rows match any key (the update writes no key column). -/
theorem any_keyEq_map_updIf (rows : List BalanceRow) (r : BalanceRow)
    (p : BalanceRow → Bool) (hp : ∀ o, p (balUpdateJs o r) = p o) :
    (rows.map (fun o => if balanceKeyEq o r then balUpdateJs o r else o)).any p =
      rows.any p := by
  induction rows with
  | nil => rfl
  | cons h t ih =>
    simp only [List.map_cons, List.any_cons, ih]
    cases hc : balanceKeyEq h r <;> simp [hc, hp]

/-- The conditional in-place update is the identity on rows that match
no key of `r`. -/
theorem map_updIf_id (rows : List BalanceRow) (r : BalanceRow)
    (h : ∀ o ∈ rows, balanceKeyEq o r = false) :
    rows.map (fun o => if balanceKeyEq o r then balUpdateJs o r else o) = rows := by
  induction rows with
  | nil => rfl
  | cons x t ih =>
    simp only [List.map_cons, h x (by simp), List.cons.injEq]
    exact ⟨by simp [h x (by simp)], ih (fun o ho => h o (List.mem_cons_of_mem x ho))⟩

theorem noDup_map_updIf (rows : List BalanceRow) (r : BalanceRow)
    (h : noDupBalanceKeys rows = true) :
    noDupBalanceKeys
      (rows.map (fun o => if balanceKeyEq o r then balUpdateJs o r else o)) = true := by
  induction rows with
  | nil => rfl
  | cons x t ih =>
    simp only [noDupBalanceKeys, Bool.and_eq_true, Bool.not_eq_true'] at h
    simp only [List.map_cons, noDupBalanceKeys, Bool.and_eq_true, Bool.not_eq_true']
    refine ⟨?_, ih h.2⟩
    have hfun : (fun o => balanceKeyEq o
        (if balanceKeyEq x r then balUpdateJs x r else x)) = fun o => balanceKeyEq o x := by
      funext o
      cases hc : balanceKeyEq x r <;> simp [hc, balanceKeyEq_balUpdateJs_right]
    rw [hfun, any_keyEq_map_updIf t r (fun o => balanceKeyEq o x)
      (fun o => balanceKeyEq_balUpdateJs_left o r x)]
    exact h.1

theorem noDup_append_single (rows : List BalanceRow) (r : BalanceRow)
    (h1 : noDupBalanceKeys rows = true)
    (h2 : rows.any (fun o => balanceKeyEq o r) = false) :
    noDupBalanceKeys (rows ++ [r]) = true := by
  induction rows with
  | nil => simp [noDupBalanceKeys]
  | cons x t ih =>
    simp only [noDupBalanceKeys, Bool.and_eq_true, Bool.not_eq_true'] at h1
    simp only [List.any_cons, Bool.or_eq_false_iff] at h2
    simp only [List.cons_append, noDupBalanceKeys, Bool.and_eq_true, Bool.not_eq_true']
    refine ⟨?_, ih h1.2 h2.2⟩
    simp only [List.append_eq, List.any_append, List.any_cons, List.any_nil,
      Bool.or_false, Bool.or_eq_false_iff]
    exact ⟨h1.1, by rw [balanceKeyEq_symm r x]; exact h2.1⟩

theorem applyBalanceUpsertJs_noDup (rows : List BalanceRow) (r : BalanceRow)
    (h : noDupBalanceKeys rows = true) :
    noDupBalanceKeys (applyBalanceUpsertJs rows r) = true := by
  cases hc : rows.any (fun o => balanceKeyEq o r) with
  | true =>
    simp only [applyBalanceUpsertJs, hc, if_true]
    exact noDup_map_updIf rows r h
  | false =>
    simp only [applyBalanceUpsertJs, hc, Bool.false_eq_true, if_false]
    exact noDup_append_single rows r h hc

theorem balanceRowStepJs_noDup (legend : List (String × String)) (az : String)
    (acc : List BalanceRow × List UnmappedRow × Report) (row : BEntry)
    (h : noDupBalanceKeys acc.1 = true) :
    noDupBalanceKeys (balanceRowStepJs legend az acc row).1 = true := by
  cases hg : (!row.year.truthy || !row.statement.truthy || !row.code.truthy) with
  | true => simpa [balanceRowStepJs, hg] using h
  | false =>
    simp only [balanceRowStepJs, hg, Bool.false_eq_true, if_false]
    exact applyBalanceUpsertJs_noDup _ _ h

theorem foldl_balanceRowStepJs_noDup (legend : List (String × String)) (az : String)
    (entries : List BEntry) :
    ∀ acc : List BalanceRow × List UnmappedRow × Report, noDupBalanceKeys acc.1 = true →
      noDupBalanceKeys (entries.foldl (balanceRowStepJs legend az) acc).1 = true := by
  induction entries with
  | nil => intro acc h; exact h
  | cons e es ih =>
    intro acc h
    exact ih _ (balanceRowStepJs_noDup legend az acc e h)

/-- A fresh-key insert appends; the conflict branch is not taken. -/
theorem applyBalanceUpsertJs_fresh (rows : List BalanceRow) (r : BalanceRow)
    (h : rows.any (fun o => balanceKeyEq o r) = false) :
    applyBalanceUpsertJs rows r = rows ++ [r] := by
  simp [applyBalanceUpsertJs, h]

theorem balanceKeyEq_rowOf (o : BalanceRow) (az : String) (row : BEntry) (d : JsValue) :
    balanceKeyEq o (balanceRowOf az row d) =
      keyMatches o az row.year row.statement row.code := rfl

theorem keyMatches_balUpdateJs (o r : BalanceRow) (az : String) (y st c : JsValue) :
    keyMatches (balUpdateJs o r) az y st c = keyMatches o az y st c := rfl

theorem keyMatches_rowOf_self (az : String) (row : BEntry) (d : JsValue) :
    keyMatches (balanceRowOf az row d) az row.year row.statement row.code = true := by
  simp [keyMatches, balanceRowOf]

/-- C2 theorem, part (ii) is stated over `upsertBalanceEntriesJsDb`:
the financial line-item upsert keeps at most one row per
`(entity, year, statement, code)` and replaces rather than appends:
(i) key-uniqueness of the stored rows is preserved by any batch of
upserts; (ii) ingesting a line item under a fresh key and then
re-ingesting the same key leaves exactly one stored row for that key,
carrying the second ingestion's (null-coalesced) amount. -/
theorem c2_balance_upsert_replaces :
    (∀ (db : Db) az entries rep, noDupBalanceKeys db.balance_entries = true →
      noDupBalanceKeys ((upsertBalanceEntriesJsDb db az entries rep).1.balance_entries)
        = true) ∧
    (∀ (db : Db) az rep rep2 (e1 e2 : BEntry),
      e1.year.truthy = true → e1.statement.truthy = true → e1.code.truthy = true →
      e2.year = e1.year → e2.statement = e1.statement → e2.code = e1.code →
      db.balance_entries.any
        (fun o => keyMatches o az e1.year e1.statement e1.code) = false →
      (((upsertBalanceEntriesJsDb
            (upsertBalanceEntriesJsDb db az [e1] rep).1 az [e2] rep2).1.balance_entries.filter
          (fun o => keyMatches o az e1.year e1.statement e1.code)).map
        (fun o => o.amount)) = [jsNullish e2.amount .null]) := by
  constructor
  · intro db az entries rep h
    exact foldl_balanceRowStepJs_noDup db.legend_codes az entries
      (db.balance_entries, db.unmapped_codes, rep) h
  · intro db az rep rep2 e1 e2 hy hs hc hy2 hs2 hc2 h0
    have hyt2 : e2.year.truthy = true := by rw [hy2]; exact hy
    have hst2 : e2.statement.truthy = true := by rw [hs2]; exact hs
    have hct2 : e2.code.truthy = true := by rw [hc2]; exact hc
    simp only [upsertBalanceEntriesJsDb, List.foldl_cons, List.foldl_nil]
    unfold balanceRowStepJs
    simp only [hy, hs, hc, hyt2, hst2, hct2, Bool.not_true, Bool.false_or,
      Bool.or_self, Bool.false_eq_true, if_false]
    have h0e : db.balance_entries.any
        (fun o => balanceKeyEq o (balanceRowOf az e1 (jsLegendDesc db.legend_codes e1)))
          = false := h0
    rw [applyBalanceUpsertJs_fresh db.balance_entries _ h0e]
    set d1 := jsLegendDesc db.legend_codes e1 with hd1
    generalize hd2 : jsLegendDesc _ e2 = d2
    have hcond : ((db.balance_entries ++ [balanceRowOf az e1 d1]).any
        (fun o => balanceKeyEq o (balanceRowOf az e2 d2))) = true := by
      rw [List.any_append]
      simp only [List.any_cons, List.any_nil, Bool.or_false]
      apply Bool.or_eq_true_iff.mpr
      right
      rw [balanceKeyEq_rowOf, hy2, hs2, hc2]
      exact keyMatches_rowOf_self az e1 d1
    unfold applyBalanceUpsertJs
    rw [hcond]
    simp only [if_true, List.map_append]
    rw [map_updIf_id db.balance_entries (balanceRowOf az e2 d2) (by
      intro o ho
      rw [balanceKeyEq_rowOf, hy2, hs2, hc2]
      have := List.any_eq_false.mp h0
      simpa using this o ho)]
    simp only [List.map_cons, List.map_nil]
    rw [show balanceKeyEq (balanceRowOf az e1 d1) (balanceRowOf az e2 d2) = true from by
      rw [balanceKeyEq_rowOf, hy2, hs2, hc2]; exact keyMatches_rowOf_self az e1 d1]
    simp only [if_true, List.filter_append]
    rw [List.filter_eq_nil_iff.mpr (by
      intro o ho
      have := List.any_eq_false.mp h0
      simpa using this o ho)]
    have hk : keyMatches (balUpdateJs (balanceRowOf az e1 d1) (balanceRowOf az e2 d2))
        az e1.year e1.statement e1.code = true := by
      rw [keyMatches_balUpdateJs]
      exact keyMatches_rowOf_self az e1 d1
    simp only [List.nil_append, List.filter_cons, hk, if_true, List.filter_nil,
      List.map_cons, List.map_nil]
    rfl

/-- C2 witness: ingesting `{year:2023, statement:"CE", code:"A1",
amount:100}` then re-ingesting the same key with `amount:150` leaves
exactly one stored row for that key, with amount 150. -/
theorem c2_witness :
    (((upsertBalanceEntriesJsDb
          (upsertBalanceEntriesJsDb emptyDb "az"
            [mkBEntry (.num 2023) (.str "CE") (.str "A1") .undef (.num 100) (.str "EUR")
              .undef .undef] (initialReport "i1")).1 "az"
          [mkBEntry (.num 2023) (.str "CE") (.str "A1") .undef (.num 150) (.str "EUR")
            .undef .undef] (initialReport "i2")).1.balance_entries.filter
        (fun o => keyMatches o "az" (.num 2023) (.str "CE") (.str "A1"))).map
      (fun o => o.amount)) = [.num 150] :=
  c2_balance_upsert_replaces.2 emptyDb "az" (initialReport "i1") (initialReport "i2")
    (mkBEntry (.num 2023) (.str "CE") (.str "A1") .undef (.num 100) (.str "EUR")
      .undef .undef)
    (mkBEntry (.num 2023) (.str "CE") (.str "A1") .undef (.num 150) (.str "EUR")
      .undef .undef)
    rfl rfl rfl rfl rfl rfl rfl

/-- C4 witness: a payload whose tier-1 section is present — the output
is exactly tier 1's filtered rows; and on the counterexample payload
the pass-2 row is emitted despite pass 1 being non-empty. -/
theorem c4_witness :
    extractBalanceEntriesHttp
        (.obj [("year", .num 2023), ("data", .obj [("stato_patrimoniale_attivo",
          .arr [.obj [("code", .str "A1"), ("value", .num 7)]])])]) =
      (httpTier1Of (.obj [("year", .num 2023), ("data", .obj [("stato_patrimoniale_attivo",
          .arr [.obj [("code", .str "A1"), ("value", .num 7)]])])])).filter
        (fun e => e.year.truthy && e.code.truthy) ∧
    mkBEntry (.num 2023) (.str "SP_P") (.str "D1") .undef (.num 3) (.str "EUR")
        (.str "balance.debts") .undef ∈ extractBalanceEntriesJs c4Payload := by
  refine ⟨?_, ?_⟩
  · exact c4_http_tiers_mutually_exclusive.1 _ (by decide)
  · exact c4_http_tiers_mutually_exclusive.2.2.2 c4Payload _ (by decide) (by decide)


/-- C7 — every exception-free CLI ingestion writes exactly one Raw
Section row: section name `"root"`, and a stored payload structurally
equal to the parsed input document, appended to whatever raw sections
existed before — regardless of how many structured facets (possibly
none) were extracted. -/
theorem c7_exactly_one_raw_root_row (now ingId freshAz freshVid : String)
    (payload : JsValue) (db0 : Db) :
    (mainJs none now ingId freshAz freshVid payload db0).raw_sections =
      db0.raw_sections ++ [⟨computeAziendaId freshAz payload, "root",
        effectiveDateForSection "root" payload now, payload⟩] := by
  cases hc : (extractContactsJs payload).truthy <;>
    cases ha : (extractAddressesJs payload).length != 0 <;>
      cases hb : (extractBalanceEntriesJs payload).length != 0 <;>
        simp only [mainJs, show ∀ n : Nat, ((none : Option Nat) == some n) = false from
            fun n => rfl, hc, ha, hb, Bool.false_eq_true, if_false, if_true] <;>
          rfl

/-- C3 counterexample: a first-ever ingestion of brand-new content that
yields no facet rows ends `UNCHANGED`, even though the version row was
newly inserted — the status never consults version novelty. -/
theorem c3_new_version_yet_unchanged :
    emptyDb.company_versions.length = 0 ∧
    (mainJs none "2024-01-01" "ing1" "fA" "vid1" (.obj [("vatCode", .str "IT123")])
      emptyDb).company_versions.length = 1 ∧
    (mainJs none "2024-01-01" "ing1" "fA" "vid1" (.obj [("vatCode", .str "IT123")])
      emptyDb).ingestions.map (fun r => r.status) = ["UNCHANGED"] :=
  ⟨rfl, rfl, rfl⟩

/-- C3 amended — on every exception-free run the terminal status is
`UPDATED` iff the extractors produced at least one facet row (balance
entries + contacts + addresses, plus ateco in the HTTP variant) and
`UNCHANGED` otherwise; version novelty plays no role, so a run whose
payload is new content but yields no facet rows ends `UNCHANGED`. -/
theorem c3_status_from_facet_counts_only :
    (∀ (now ingId freshAz freshVid : String) (payload : JsValue) (db0 : Db),
      ∃ rep, (mainJs none now ingId freshAz freshVid payload db0).ingestions =
        db0.ingestions ++ [⟨ingId, "it-full", some (computeAziendaId freshAz payload),
          jsStatusOf payload, .report rep⟩]) ∧
    (∀ (now ingId freshAz freshVid : String) (fA : Nat → String) (payload : JsValue)
      (db0 : Db),
      ∃ rep, (mainHttp none now ingId freshAz freshVid fA payload db0).ingestions =
        db0.ingestions ++ [⟨ingId, "it-full", some (computeAziendaIdHttp freshAz payload),
          httpStatusOf payload, .report rep⟩]) :=
  ⟨fun now ingId freshAz freshVid payload db0 =>
    mainJs_happy_ingestions none now ingId freshAz freshVid payload db0 (by simp),
  fun now ingId freshAz freshVid fA payload db0 =>
    mainHttp_happy_ingestions none now ingId freshAz freshVid fA payload db0 (by simp)⟩

/-- C10 — every `ingestions` row either pipeline variant itself
persists carries one of the three terminal statuses `UPDATED`,
`UNCHANGED` or `ERROR`: the in-memory initial `PARTIAL` is always
overwritten before the row is written, and no code path writes
`OUTDATED`. -/
theorem c10_only_three_terminal_statuses :
    ∀ (failAt : Option Nat) (now ingId freshAz freshVid : String) (fA : Nat → String)
      (payload : JsValue) (db0 : Db),
    (∀ r ∈ (mainJs failAt now ingId freshAz freshVid payload db0).ingestions,
        r ∈ db0.ingestions ∨ r.status = "UPDATED" ∨ r.status = "UNCHANGED" ∨
          r.status = "ERROR") ∧
    (∀ r ∈ (mainHttp failAt now ingId freshAz freshVid fA payload db0).ingestions,
        r ∈ db0.ingestions ∨ r.status = "UPDATED" ∨ r.status = "UNCHANGED" ∨
          r.status = "ERROR") := by
  intro failAt now ingId freshAz freshVid fA payload db0
  constructor
  · intro r hr
    by_cases hk : ∃ k, 1 ≤ k ∧ k ≤ 8 ∧ failAt = some k
    · obtain ⟨k, hk1, hk2, rfl⟩ := hk
      obtain ⟨msg, heq⟩ := mainJs_fail k now ingId freshAz freshVid payload db0 hk1 hk2
      rw [heq, jsFail_ingestions] at hr
      rcases List.mem_append.mp hr with h | h
      · exact Or.inl h
      · have h2 := List.mem_singleton.mp h
        subst h2
        exact Or.inr (Or.inr (Or.inr rfl))
    · have hf : ∀ j, 1 ≤ j → j ≤ 8 → failAt ≠ some j := fun j h1 h2 he =>
        hk ⟨j, h1, h2, he⟩
      obtain ⟨rep, heq⟩ :=
        mainJs_happy_ingestions failAt now ingId freshAz freshVid payload db0 hf
      rw [heq] at hr
      rcases List.mem_append.mp hr with h | h
      · exact Or.inl h
      · have h2 := List.mem_singleton.mp h
        subst h2
        rcases jsStatusOf_cases payload with hs | hs
        · exact Or.inr (Or.inl hs)
        · exact Or.inr (Or.inr (Or.inl hs))
  · intro r hr
    by_cases hk : ∃ k, 1 ≤ k ∧ k ≤ 8 ∧ failAt = some k
    · obtain ⟨k, hk1, hk2, rfl⟩ := hk
      obtain ⟨msg, heq⟩ :=
        mainHttp_fail_ingestions k now ingId freshAz freshVid fA payload db0 hk1 hk2
      rw [heq] at hr
      rcases List.mem_append.mp hr with h | h
      · exact Or.inl h
      · have h2 := List.mem_singleton.mp h
        subst h2
        exact Or.inr (Or.inr (Or.inr rfl))
    · have hf : ∀ j, 1 ≤ j → j ≤ 8 → failAt ≠ some j := fun j h1 h2 he =>
        hk ⟨j, h1, h2, he⟩
      obtain ⟨rep, heq⟩ :=
        mainHttp_happy_ingestions failAt now ingId freshAz freshVid fA payload db0 hf
      rw [heq] at hr
      rcases List.mem_append.mp hr with h | h
      · exact Or.inl h
      · have h2 := List.mem_singleton.mp h
        subst h2
        rcases httpStatusOf_cases payload with hs | hs
        · exact Or.inr (Or.inl hs)
        · exact Or.inr (Or.inr (Or.inl hs))


/-- C8 counterexample: in the HTTP variant an exception at the
balance-entries step leaves the company, version and raw-section writes
of the same attempt **persisted** (there is no transaction), alongside
the `ERROR` run row — refuting "none of that attempt's facet, version,
raw-section or company writes persist". -/
theorem c8_http_partial_writes_persist :
    (mainHttp (some 7) "2024-01-01" "ing" "fA" "vid" (fun _ => "at")
      (.obj [("vatCode", .str "IT123")]) emptyDb).raw_sections.length = 1 ∧
    (mainHttp (some 7) "2024-01-01" "ing" "fA" "vid" (fun _ => "at")
      (.obj [("vatCode", .str "IT123")]) emptyDb).company_versions.length = 1 ∧
    (mainHttp (some 7) "2024-01-01" "ing" "fA" "vid" (fun _ => "at")
      (.obj [("vatCode", .str "IT123")]) emptyDb).companies.length = 1 ∧
    (mainHttp (some 7) "2024-01-01" "ing" "fA" "vid" (fun _ => "at")
      (.obj [("vatCode", .str "IT123")]) emptyDb).ingestions.map (fun r => r.status) =
      ["ERROR"] :=
  ⟨rfl, rfl, rfl, rfl⟩

/-- C8 amended — in the CLI variant an exception at any of the eight
persistence steps discards every write of the attempt (the transaction
never commits) and the resulting store is exactly the initial one plus
a single `ERROR` run row whose summary carries the error message,
written outside the failed transaction; in the HTTP variant the
already-committed writes persist, but a best-effort `ERROR` run row is
still appended on top of the mid-run state. -/
theorem c8_error_handling (k : Nat) (now ingId freshAz freshVid : String)
    (fA : Nat → String) (payload : JsValue) (db0 : Db) (h1 : 1 ≤ k) (h2 : k ≤ 8) :
    (∃ msg, mainJs (some k) now ingId freshAz freshVid payload db0 =
      jsFail db0 ingId msg) ∧
    (∃ msg dbMid, mainHttp (some k) now ingId freshAz freshVid fA payload db0 =
      httpFail dbMid ingId msg) :=
  ⟨mainJs_fail k now ingId freshAz freshVid payload db0 h1 h2,
    mainHttp_fail k now ingId freshAz freshVid fA payload db0 h1 h2⟩

/-- C8 witness: a failure at step 3 of either variant produces the
rolled-back-plus-`ERROR`-row outcome (CLI) and the best-effort `ERROR`
row (HTTP). -/
theorem c8_witness :
    (∃ msg, mainJs (some 3) "d" "i" "a" "v" (.obj []) emptyDb = jsFail emptyDb "i" msg) ∧
    (∃ msg dbMid, mainHttp (some 3) "d" "i" "a" "v" (fun _ => "x") (.obj []) emptyDb =
      httpFail dbMid "i" msg) :=
  c8_error_handling 3 "d" "i" "a" "v" (fun _ => "x") (.obj []) emptyDb
    (by norm_num) (by norm_num)

/-- C10 witness: on a concrete failed run, the single persisted row has
status `ERROR` — one of the three allowed terminal statuses. -/
theorem c10_witness :
    errorRow "i" "upsertCompany failed" ∈ (emptyDb : Db).ingestions ∨
    (errorRow "i" "upsertCompany failed").status = "UPDATED" ∨
    (errorRow "i" "upsertCompany failed").status = "UNCHANGED" ∨
    (errorRow "i" "upsertCompany failed").status = "ERROR" :=
  (c10_only_three_terminal_statuses (some 1) "d" "i" "a" "v" (fun _ => "x")
    (.obj []) emptyDb).1 (errorRow "i" "upsertCompany failed") (by decide)

/- ------------------------------- C9 --------------------------------- -/

/-- A candidate line item lacking one of the required keys (the guard
of both `upsertBalanceEntries` variants). -/
def missingKeys (e : BEntry) : Bool :=
  !e.year.truthy || !e.statement.truthy || !e.code.truthy

theorem balanceRowStepJs_dropped (legend : List (String × String)) (az : String)
    (acc : List BalanceRow × List UnmappedRow × Report) (row : BEntry)
    (hm : missingKeys row = true) :
    balanceRowStepJs legend az acc row =
      (acc.1, acc.2.1, { acc.2.2 with warnings :=
        acc.2.2.warnings ++ [⟨"balance_entries", "missing_keys", row⟩] }) := by
  unfold balanceRowStepJs
  rw [show (!row.year.truthy || !row.statement.truthy || !row.code.truthy) = true from hm]
  simp

theorem balanceRowStepJs_kept (legend : List (String × String)) (az : String)
    (acc : List BalanceRow × List UnmappedRow × Report) (row : BEntry)
    (hm : missingKeys row = false) :
    balanceRowStepJs legend az acc row =
      (applyBalanceUpsertJs acc.1 (balanceRowOf az row (jsLegendDesc legend row)),
        jsTrackUnmapped legend acc.2.1 row, acc.2.2) := by
  unfold balanceRowStepJs
  rw [show (!row.year.truthy || !row.statement.truthy || !row.code.truthy) = false from hm]
  simp

/-- The dropped candidates contribute exactly their warnings, in order. -/
theorem foldl_balanceRowStepJs_warnings (legend : List (String × String)) (az : String) :
    ∀ (entries : List BEntry) (acc : List BalanceRow × List UnmappedRow × Report),
      (entries.foldl (balanceRowStepJs legend az) acc).2.2.warnings =
        acc.2.2.warnings ++ (entries.filter missingKeys).map
          (fun e => ⟨"balance_entries", "missing_keys", e⟩) := by
  intro entries
  induction entries with
  | nil => intro acc; simp
  | cons e es ih =>
    intro acc
    cases hm : missingKeys e with
    | true =>
      rw [List.foldl_cons, balanceRowStepJs_dropped legend az acc e hm, ih]
      simp [hm, List.filter_cons]
    | false =>
      rw [List.foldl_cons, balanceRowStepJs_kept legend az acc e hm, ih]
      simp [hm, List.filter_cons]

/-- The stored-table components of the fold do not depend on the report
component of the accumulator. -/
theorem foldl_balanceRowStepJs_indep (legend : List (String × String)) (az : String) :
    ∀ (entries : List BEntry) (b : List BalanceRow) (u : List UnmappedRow)
      (r r2 : Report),
      (entries.foldl (balanceRowStepJs legend az) (b, u, r)).1 =
        (entries.foldl (balanceRowStepJs legend az) (b, u, r2)).1 ∧
      (entries.foldl (balanceRowStepJs legend az) (b, u, r)).2.1 =
        (entries.foldl (balanceRowStepJs legend az) (b, u, r2)).2.1 := by
  intro entries
  induction entries with
  | nil => intro b u r r2; exact ⟨rfl, rfl⟩
  | cons e es ih =>
    intro b u r r2
    cases hm : missingKeys e with
    | true =>
      rw [List.foldl_cons, List.foldl_cons, balanceRowStepJs_dropped legend az (b, u, r) e hm,
        balanceRowStepJs_dropped legend az (b, u, r2) e hm]
      exact ih b u _ _
    | false =>
      rw [List.foldl_cons, List.foldl_cons, balanceRowStepJs_kept legend az (b, u, r) e hm,
        balanceRowStepJs_kept legend az (b, u, r2) e hm]
      exact ih _ _ r r2

/-- Dropped candidates never reach the store: the fold's stored-table
effect equals that of processing only the well-keyed entries. -/
theorem foldl_balanceRowStepJs_filter (legend : List (String × String)) (az : String) :
    ∀ (entries : List BEntry) (b : List BalanceRow) (u : List UnmappedRow) (r : Report),
      ((entries.filter (fun e => !missingKeys e)).foldl
          (balanceRowStepJs legend az) (b, u, r)).1 =
        (entries.foldl (balanceRowStepJs legend az) (b, u, r)).1 ∧
      ((entries.filter (fun e => !missingKeys e)).foldl
          (balanceRowStepJs legend az) (b, u, r)).2.1 =
        (entries.foldl (balanceRowStepJs legend az) (b, u, r)).2.1 := by
  intro entries
  induction entries with
  | nil => intro b u r; exact ⟨rfl, rfl⟩
  | cons e es ih =>
    intro b u r
    cases hm : missingKeys e with
    | true =>
      rw [List.foldl_cons, balanceRowStepJs_dropped legend az (b, u, r) e hm]
      have hfe : (e :: es).filter (fun e => !missingKeys e) =
          es.filter (fun e => !missingKeys e) := by simp [List.filter_cons, hm]
      rw [hfe]
      refine ⟨?_, ?_⟩
      · rw [(ih b u r).1]
        exact (foldl_balanceRowStepJs_indep legend az es b u r _).1
      · rw [(ih b u r).2]
        exact (foldl_balanceRowStepJs_indep legend az es b u r _).2
    | false =>
      have hfe : (e :: es).filter (fun e => !missingKeys e) =
          e :: es.filter (fun e => !missingKeys e) := by simp [List.filter_cons, hm]
      rw [hfe, List.foldl_cons, List.foldl_cons,
        balanceRowStepJs_kept legend az (b, u, r) e hm]
      exact ih _ _ r

/-- C9 counterexample: a candidate financial line item with a code but
no fiscal year is silently removed by the CLI extractor's final
`filter(e => e.year)` — it never reaches the upsert guard, so the run
commits with an **empty** warning list, refuting "each such drop is
reported as a warning entry in the run summary". -/
theorem c9_silent_drop_no_warning :
    jsTier1Of (.obj [("balance", .obj [("assetsAggregateValues",
      .obj [("A1", .num 5)])])]) ≠ [] ∧
    extractBalanceEntriesJs (.obj [("balance", .obj [("assetsAggregateValues",
      .obj [("A1", .num 5)])])]) = [] ∧
    (mainJs none "2024-01-01" "ing" "fA" "vid" (.obj [("balance",
      .obj [("assetsAggregateValues", .obj [("A1", .num 5)])])]) emptyDb).ingestions.map
      (fun r => match r.summary with
        | .report rep => rep.warnings.length
        | .errorObj _ => 1) = [0] :=
  ⟨by decide, rfl, rfl⟩

/-- C9 amended — at the upsert stage the claim holds: every entry
missing a year, statement or code is dropped (it contributes nothing to
`balance_entries` or `unmapped_codes`), each such drop appends exactly
one `missing_keys` warning, and the remaining entries are still
processed; no error is raised. However, candidates missing a fiscal
year never reach this guard in the CLI pipeline (and candidates missing
a year or code never reach it in the HTTP pipeline): the extractors'
final filters remove them silently, with no warning. -/
theorem c9_upsert_guard_warns_and_continues (db : Db) (az : String)
    (entries : List BEntry) (rep : Report) :
    (upsertBalanceEntriesJsDb db az entries rep).2.warnings =
      rep.warnings ++ (entries.filter missingKeys).map
        (fun e => ⟨"balance_entries", "missing_keys", e⟩) ∧
    (upsertBalanceEntriesJsDb db az entries rep).1.balance_entries =
      (upsertBalanceEntriesJsDb db az (entries.filter (fun e => !missingKeys e))
        rep).1.balance_entries ∧
    (upsertBalanceEntriesJsDb db az entries rep).1.unmapped_codes =
      (upsertBalanceEntriesJsDb db az (entries.filter (fun e => !missingKeys e))
        rep).1.unmapped_codes := by
  refine ⟨?_, ?_, ?_⟩
  · exact foldl_balanceRowStepJs_warnings db.legend_codes az entries
      (db.balance_entries, db.unmapped_codes, rep)
  · exact ((foldl_balanceRowStepJs_filter db.legend_codes az entries
      db.balance_entries db.unmapped_codes rep).1).symm
  · exact ((foldl_balanceRowStepJs_filter db.legend_codes az entries
      db.balance_entries db.unmapped_codes rep).2).symm

end Betlemme
